import Mathlib

/-!
Shallow embedding of `src/py3/classes/sysflow/formatter.py` (class `SFFormatter`):
the record-flattening and projection engine of the sysflow formatter, together
with its three stream renderers (JSON, CSV, tabular pretty print).

Python `OrderedDict`s are modelled as association lists (`List (String × Value)`)
with update-in-place-or-append semantics (`odSet`); Python runtime failures
(AttributeError on `None`, KeyError, TypeError, ValueError) are modelled with an
`Except PyError` result.  The external helper module `sysflow.utils` and the
`OBJECT_MAP` table (out of scope per the spec, consumed as pure functions) are
abstracted as a `Helpers` structure of arbitrary pure functions.
-/

set_option maxHeartbeats 1000000
set_option maxRecDepth 100000

namespace SF

/-- Modelled from the spec: the object-type tag distinguishing the four record
variants of a `VariantRecord` (the `ObjectTypes` enum lives in
`sysflow/objtypes.py`, which is not part of the flattening source file). -/
inductive ObjectTypes where
  | PROC_EVT
  | FILE_EVT
  | FILE_FLOW
  | NET_FLOW
deriving DecidableEq

/-- A Python value as stored in the flattened mappings: scalar strings, ints,
booleans, and nested mappings (for the versioned v0.2 shape). -/
inductive Value where
  | str (s : String)
  | int (n : Int)
  | bool (b : Bool)
  | obj (entries : List (String × Value))

/-- Python runtime errors that the formatter code can raise. -/
inductive PyError where
  | attributeError
  | keyError (k : String)
  | typeError
  | valueError
deriving DecidableEq

structure OID where
  hpid : Int
  createTS : Int

structure Process where
  oid : OID
  uid : Int
  userName : String
  gid : Int
  groupName : String
  exe : String
  exeArgs : String
  tty : Bool

structure Container where
  id : String
  name : String
  imageid : String
  image : String
  type : String
  privileged : Bool

structure SFFile where
  path : String

/-- The event side of a record (`ProcessEvent`/`FileEvent`): carries
`opFlags`, `ret`, `ts`, `tid` but no `endTs` and no network fields. -/
structure Event where
  opFlags : Int
  ret : Int
  ts : Int
  tid : Int

/-- The flow side of a record (`FileFlow`/`NetworkFlow`): carries start/end
timestamps, descriptors and volumetric counters, but no `ret`. -/
structure Flow where
  opFlags : Int
  ts : Int
  endTs : Int
  tid : Int
  fd : Int
  openFlags : Int
  proto : Int
  sport : Int
  dport : Int
  sip : Int
  dip : Int
  numRRecvBytes : Int
  numRRecvOps : Int
  numWSendBytes : Int
  numWSendOps : Int

/-- `evflow = evt or flow`: whichever of the event/flow sides is present. -/
abbrev EvFlow := Sum Event Flow

/-- External pure helpers (`sysflow.utils` and `OBJECT_MAP.get`), out of scope
per the spec and consumed as arbitrary pure functions. -/
structure Helpers where
  OBJECT_MAP : ObjectTypes → String
  getOpFlagsStr : Int → String
  getOpStr : Int → String
  getOpFlagsDict : Int → List (String × Value)
  getTimeStr : Int → String
  getTimeStrIso8601 : Int → String
  getIpIntStr : Int → String
  getNetFlowStr : Option Flow → String

/-- Attribute access on a possibly-`None` Python object. -/
def deref : Option α → Except PyError α
  | some a => .ok a
  | none => .error .attributeError

/-- `evt or flow` (an object is truthy, `None` is falsy). -/
def evOr (evt : Option Event) (flow : Option Flow) : Option EvFlow :=
  match evt with
  | some e => some (Sum.inl e)
  | none => flow.map Sum.inr

def evfOpFlags : EvFlow → Int
  | .inl e => e.opFlags
  | .inr f => f.opFlags

def evfTs : EvFlow → Int
  | .inl e => e.ts
  | .inr f => f.ts

def evfTid : EvFlow → Int
  | .inl e => e.tid
  | .inr f => f.tid

/-- `.ret` exists only on the event side. -/
def evfRet : EvFlow → Except PyError Int
  | .inl e => .ok e.ret
  | .inr _ => .error .attributeError

/-- `.endTs` exists only on the flow side. -/
def evfEndTs : EvFlow → Except PyError Int
  | .inl _ => .error .attributeError
  | .inr f => .ok f.endTs

def evfProto : EvFlow → Except PyError Int
  | .inl _ => .error .attributeError
  | .inr f => .ok f.proto

def evfSport : EvFlow → Except PyError Int
  | .inl _ => .error .attributeError
  | .inr f => .ok f.sport

def evfDport : EvFlow → Except PyError Int
  | .inl _ => .error .attributeError
  | .inr f => .ok f.dport

def evfSip : EvFlow → Except PyError Int
  | .inl _ => .error .attributeError
  | .inr f => .ok f.sip

def evfDip : EvFlow → Except PyError Int
  | .inl _ => .error .attributeError
  | .inr f => .ok f.dip

/-- First-match association-list lookup (Python `dict` access / `in`). -/
def alook : List (String × β) → String → Option β
  | [], _ => none
  | (k', v) :: t, k => if k' = k then some v else alook t k

/-- `OrderedDict` assignment `d[k] = v`: update in place if the key exists,
otherwise append at the end. -/
def odSet (l : List (String × Value)) (k : String) (v : Value) : List (String × Value) :=
  match l with
  | [] => [(k, v)]
  | (k', v') :: t => if k' = k then (k, v) :: t else (k', v') :: odSet t k v

/-- `X if o is not None else ''` for an attribute access that cannot itself fail. -/
def optAttr (o : Option α) (f : α → Value) : Value :=
  match o with
  | some a => f a
  | none => .str ""

/-- `X if c else ''` where evaluating `X` may raise. -/
def pyIf (c : Prop) [Decidable c] (x : Except PyError Value) : Except PyError Value :=
  if c then x else .ok (.str "")

/-- The canonical legacy key sequence: the keys of `_flat_map` in the order
`SFFormatter._flatten` assigns them. -/
def canonicalKeys : List String :=
  ["flow_type", "op_flags", "ret_code", "ts", "ts_uts", "end_ts", "end_ts_uts",
   "proc_pid", "proc_tid", "proc_uid", "proc_user", "proc_gid", "proc_group",
   "proc_exe", "proc_args", "proc_tty", "proc_create_ts",
   "pproc_pid", "pproc_gid", "pproc_uid", "pproc_group", "pproc_tty",
   "pproc_user", "pproc_exe", "pproc_args", "pproc_create_ts",
   "fd", "open_flags", "res", "proto", "sport", "dport", "sip", "dip",
   "rcv_r_bytes", "rcv_r_ops", "snd_w_bytes", "snd_w_ops",
   "cont_id", "cont_name", "cont_image_id", "cont_image", "cont_type",
   "cont_privileged"]

/-- `_default_fields` from the source. -/
def _default_fields : List String :=
  ["flow_type", "proc_exe", "proc_args", "pproc_pid", "proc_pid", "proc_tid",
   "op_flags", "ts", "end_ts", "fd", "ret_code", "res", "rcv_r_bytes",
   "snd_w_bytes", "cont_id"]

/-- `_colwidths` from the source. -/
def _colwidths : List (String × Nat) :=
  [("idx", 6), ("flow_type", 5), ("op_flags", 12), ("op_flags_bitmap", 5),
   ("ret_code", 4), ("ts", 26), ("ts_uts", 12), ("end_ts", 26), ("end_ts_uts", 12),
   ("proc_pid", 5), ("proc_tid", 5), ("proc_uid", 5), ("proc_user", 8),
   ("proc_gid", 5), ("proc_group", 8), ("proc_exe", 30), ("proc_args", 45),
   ("proc_tty", 5), ("proc_create_ts", 12), ("pproc_pid", 5), ("pproc_gid", 5),
   ("pproc_uid", 5), ("pproc_group", 8), ("pproc_tty", 5), ("pproc_user", 8),
   ("pproc_exe", 30), ("pproc_args", 45), ("pproc_create_ts", 8), ("fd", 5),
   ("open_flags", 5), ("res", 45), ("proto", 5), ("sport", 5), ("dport", 5),
   ("sip", 16), ("dip", 16), ("rcv_r_bytes", 8), ("rcv_r_ops", 8),
   ("snd_w_bytes", 8), ("snd_w_ops", 8), ("cont_id", 16), ("cont_image_id", 16),
   ("cont_image", 16), ("cont_name", 16), ("cont_type", 8), ("cont_privileged", 5)]

/-- The statement sequence of `SFFormatter._flatten` that builds the full
legacy `_flat_map`, in source order; statements execute left to right and a
raised error aborts the rest. -/
def _flatten_map (H : Helpers) (objtype : ObjectTypes) (_header : Option Unit)
    (cont : Option Container) (pproc proc : Option Process)
    (files : Option (Option SFFile × Option SFFile))
    (evt : Option Event) (flow : Option Flow) :
    Except PyError (List (String × Value)) := do
  let evflow := evOr evt flow
  let flow_type := Value.str (H.OBJECT_MAP objtype)
  let op_flags := optAttr evflow (fun ef => .str (H.getOpFlagsStr (evfOpFlags ef)))
  let ret_code ← pyIf evt.isSome (do
    let ef ← deref evflow
    let x ← evfRet ef
    pure (Value.int x))
  let ts := optAttr evflow (fun ef => .str (H.getTimeStr (evfTs ef)))
  let ts_uts := optAttr evflow (fun ef => .int (evfTs ef))
  let end_ts ← pyIf flow.isSome (do
    let ef ← deref evflow
    let x ← evfEndTs ef
    pure (Value.str (H.getTimeStr x)))
  let end_ts_uts ← pyIf flow.isSome (do
    let ef ← deref evflow
    let x ← evfEndTs ef
    pure (Value.int x))
  let p ← deref proc
  let proc_pid := Value.int p.oid.hpid
  let proc_tid := optAttr evflow (fun ef => .int (evfTid ef))
  let proc_uid := optAttr proc (fun p => .int p.uid)
  let proc_user := optAttr proc (fun p => .str p.userName)
  let proc_gid := optAttr proc (fun p => .int p.gid)
  let proc_group := optAttr proc (fun p => .str p.groupName)
  let proc_exe := optAttr proc (fun p => .str p.exe)
  let proc_args := optAttr proc (fun p => .str p.exeArgs)
  let proc_tty := optAttr proc (fun p => .bool p.tty)
  let proc_create_ts := optAttr proc (fun p => .int p.oid.createTS)
  let pproc_pid := optAttr pproc (fun pp => .int pp.oid.hpid)
  let pproc_gid := optAttr pproc (fun pp => .int pp.gid)
  let pproc_uid := optAttr pproc (fun pp => .int pp.uid)
  let pproc_group := optAttr pproc (fun pp => .str pp.groupName)
  let pproc_tty := optAttr pproc (fun pp => .bool pp.tty)
  let pproc_user := optAttr pproc (fun pp => .str pp.userName)
  let pproc_exe := optAttr pproc (fun pp => .str pp.exe)
  let pproc_args := optAttr pproc (fun pp => .str pp.exeArgs)
  let pproc_create_ts := optAttr pproc (fun pp => .int pp.oid.createTS)
  let fd := optAttr flow (fun f => .int f.fd)
  let open_flags ← pyIf (objtype = .FILE_FLOW) (do
    let f ← deref flow
    pure (Value.int f.openFlags))
  let res : Value :=
    if objtype = .FILE_FLOW ∨ objtype = .FILE_EVT then
      .str ((match files with
             | some (some f1, _) => f1.path
             | _ => "") ++
            (match files with
             | some (_, some f2) => ", " ++ f2.path
             | _ => ""))
    else if objtype = .NET_FLOW then
      .str (H.getNetFlowStr flow)
    else
      .str ""
  let proto ← pyIf (objtype = .NET_FLOW) (do
    let ef ← deref evflow
    let x ← evfProto ef
    pure (Value.int x))
  let sport ← pyIf (objtype = .NET_FLOW) (do
    let ef ← deref evflow
    let x ← evfSport ef
    pure (Value.int x))
  let dport ← pyIf (objtype = .NET_FLOW) (do
    let ef ← deref evflow
    let x ← evfDport ef
    pure (Value.int x))
  let sip ← pyIf (objtype = .NET_FLOW) (do
    let ef ← deref evflow
    let x ← evfSip ef
    pure (Value.int x))
  let dip ← pyIf (objtype = .NET_FLOW) (do
    let ef ← deref evflow
    let x ← evfDip ef
    pure (Value.int x))
  let rcv_r_bytes := optAttr flow (fun f => .int f.numRRecvBytes)
  let rcv_r_ops := optAttr flow (fun f => .int f.numRRecvOps)
  let snd_w_bytes := optAttr flow (fun f => .int f.numWSendBytes)
  let snd_w_ops := optAttr flow (fun f => .int f.numWSendOps)
  let cont_id := optAttr cont (fun c => .str c.id)
  let cont_name := optAttr cont (fun c => .str c.name)
  let cont_image_id := optAttr cont (fun c => .str c.imageid)
  let cont_image := optAttr cont (fun c => .str c.image)
  let cont_type := optAttr cont (fun c => .str c.type)
  let cont_privileged := optAttr cont (fun c => .bool c.privileged)
  pure [("flow_type", flow_type), ("op_flags", op_flags), ("ret_code", ret_code),
        ("ts", ts), ("ts_uts", ts_uts), ("end_ts", end_ts), ("end_ts_uts", end_ts_uts),
        ("proc_pid", proc_pid), ("proc_tid", proc_tid), ("proc_uid", proc_uid),
        ("proc_user", proc_user), ("proc_gid", proc_gid), ("proc_group", proc_group),
        ("proc_exe", proc_exe), ("proc_args", proc_args), ("proc_tty", proc_tty),
        ("proc_create_ts", proc_create_ts), ("pproc_pid", pproc_pid),
        ("pproc_gid", pproc_gid), ("pproc_uid", pproc_uid), ("pproc_group", pproc_group),
        ("pproc_tty", pproc_tty), ("pproc_user", pproc_user), ("pproc_exe", pproc_exe),
        ("pproc_args", pproc_args), ("pproc_create_ts", pproc_create_ts),
        ("fd", fd), ("open_flags", open_flags), ("res", res), ("proto", proto),
        ("sport", sport), ("dport", dport), ("sip", sip), ("dip", dip),
        ("rcv_r_bytes", rcv_r_bytes), ("rcv_r_ops", rcv_r_ops),
        ("snd_w_bytes", snd_w_bytes), ("snd_w_ops", snd_w_ops),
        ("cont_id", cont_id), ("cont_name", cont_name),
        ("cont_image_id", cont_image_id), ("cont_image", cont_image),
        ("cont_type", cont_type), ("cont_privileged", cont_privileged)]

/-- The legacy projection loop `for k in fields: od[k] = _flat_map[k]`. -/
def projLoop (m : List (String × Value)) (od : List (String × Value)) :
    List String → Except PyError (List (String × Value))
  | [] => .ok od
  | k :: ks =>
    match alook m k with
    | some v => projLoop m (odSet od k v) ks
    | none => .error (.keyError k)

/-- `SFFormatter._flatten`: build the full legacy mapping, then (`if fields:`)
project it down to the requested keys. -/
def _flatten (H : Helpers) (objtype : ObjectTypes) (header : Option Unit)
    (cont : Option Container) (pproc proc : Option Process)
    (files : Option (Option SFFile × Option SFFile))
    (evt : Option Event) (flow : Option Flow) (fields : Option (List String)) :
    Except PyError (List (String × Value)) := do
  let m ← _flatten_map H objtype header cont pproc proc files evt flow
  match fields with
  | some fs => if fs.isEmpty then pure m else projLoop m [] fs
  | none => pure m

/-- A concrete instantiation of the external helpers, used to evaluate the
model on sample inputs. -/
def defaultHelpers : Helpers where
  OBJECT_MAP := fun t =>
    match t with
    | .PROC_EVT => "PE"
    | .FILE_EVT => "FE"
    | .FILE_FLOW => "FF"
    | .NET_FLOW => "NF"
  getOpFlagsStr := fun n => toString n
  getOpStr := fun n => toString n
  getOpFlagsDict := fun _ => []
  getTimeStr := fun n => toString n
  getTimeStrIso8601 := fun n => toString n
  getIpIntStr := fun n => toString n
  getNetFlowStr := fun _ => "sip:sport-dip:dport"

/-- The statement sequence of `SFFormatter._flatten2` that builds the full
versioned (v0.2) nested mapping, in source order. -/
def _flatten2_map (H : Helpers) (objtype : ObjectTypes) (_header : Option Unit)
    (cont : Option Container) (pproc proc : Option Process)
    (files : Option (Option SFFile × Option SFFile))
    (evt : Option Event) (flow : Option Flow) :
    Except PyError (List (String × Value)) := do
  let evflow := evOr evt flow
  let typeV := Value.str (H.OBJECT_MAP objtype)
  let tsField := if objtype = .FILE_FLOW ∨ objtype = .NET_FLOW then "start_ts" else "ts"
  let tsV := optAttr evflow (fun ef => .str (H.getTimeStrIso8601 (evfTs ef)))
  let tsUtsV := optAttr evflow (fun ef => .int (evfTs ef))
  let endPart ←
    if objtype = .FILE_FLOW ∨ objtype = .NET_FLOW then do
      let e1 ← pyIf flow.isSome (do
        let ef ← deref evflow
        let x ← evfEndTs ef
        pure (Value.str (H.getTimeStrIso8601 x)))
      let e2 ← pyIf flow.isSome (do
        let ef ← deref evflow
        let x ← evfEndTs ef
        pure (Value.int x))
      pure [("end_ts", e1), ("end_ts_uts", e2)]
    else pure ([] : List (String × Value))
  let procV := Value.obj (match proc with
    | some p =>
      [("pid", Value.int p.oid.hpid),
       ("tid", optAttr evflow (fun ef => Value.int (evfTid ef))),
       ("uid", .int p.uid), ("user", .str p.userName), ("gid", .int p.gid),
       ("group", .str p.groupName), ("exe", .str p.exe), ("args", .str p.exeArgs),
       ("tty", .bool p.tty), ("create_ts", .int p.oid.createTS)]
    | none => [])
  let pprocV := Value.obj (match pproc with
    | some pp =>
      [("pid", Value.int pp.oid.hpid), ("gid", .int pp.gid), ("uid", .int pp.uid),
       ("group", .str pp.groupName), ("tty", .bool pp.tty), ("user", .str pp.userName),
       ("exe", .str pp.exe), ("args", .str pp.exeArgs), ("create_ts", .int pp.oid.createTS)]
    | none => [])
  let opPart : List (String × Value) :=
    if objtype = .FILE_EVT ∨ objtype = .PROC_EVT then
      [("op", optAttr evflow (fun ef => .str (H.getOpStr (evfOpFlags ef))))]
    else []
  let opflagsPart : List (String × Value) :=
    if objtype = .FILE_FLOW ∨ objtype = .NET_FLOW then
      [("opflags", match evflow with
        | some ef => Value.obj (H.getOpFlagsDict (evfOpFlags ef))
        | none => Value.obj [])]
    else []
  let retPart ←
    if objtype = .FILE_EVT ∨ objtype = .PROC_EVT then do
      let rv ← pyIf evt.isSome (do
        let ef ← deref evflow
        let x ← evfRet ef
        pure (Value.int x))
      pure [("ret", rv)]
    else pure ([] : List (String × Value))
  let netPart ←
    if objtype = .NET_FLOW then do
      let ef ← deref evflow
      let sipv ← evfSip ef
      let dipv ← evfDip ef
      let protov ← evfProto ef
      let sportv ← evfSport ef
      let dportv ← evfDport ef
      pure [("sip", Value.str (H.getIpIntStr sipv)), ("dip", Value.str (H.getIpIntStr dipv)),
            ("proto", Value.int protov), ("sport", Value.int sportv),
            ("dport", Value.int dportv)]
    else pure ([] : List (String × Value))
  let filePart ←
    if objtype = .FILE_FLOW ∨ objtype = .FILE_EVT then do
      let fpart : List (String × Value) :=
        match files with
        | some (f1, f2) =>
          [("file", match f1 with
            | some f => Value.str f.path
            | none => Value.str "")] ++
          (match f2 with
           | some f => [("file2", Value.str f.path)]
           | none => [])
        | none => []
      let fdv := optAttr flow (fun f => Value.int f.fd)
      let ofv ← pyIf (objtype = .FILE_FLOW) (do
        let f ← deref flow
        pure (Value.int f.openFlags))
      pure (fpart ++ [("fd", fdv), ("open_flags", ofv)])
    else pure ([] : List (String × Value))
  let volNet : List (String × Value) :=
    if objtype = .NET_FLOW then
      [("rcvd_bytes", optAttr flow (fun f => Value.int f.numRRecvBytes)),
       ("rcvd_ops", optAttr flow (fun f => Value.int f.numRRecvOps)),
       ("sent_bytes", optAttr flow (fun f => Value.int f.numWSendBytes)),
       ("sent_ops", optAttr flow (fun f => Value.int f.numWSendOps))]
    else []
  let volFile : List (String × Value) :=
    if objtype = .FILE_FLOW then
      [("r_bytes", optAttr flow (fun f => Value.int f.numRRecvBytes)),
       ("r_ops", optAttr flow (fun f => Value.int f.numRRecvOps)),
       ("w_bytes", optAttr flow (fun f => Value.int f.numWSendBytes)),
       ("w_ops", optAttr flow (fun f => Value.int f.numWSendOps))]
    else []
  let contV := Value.obj (match cont with
    | some c =>
      [("id", Value.str c.id), ("name", .str c.name), ("image_id", .str c.imageid),
       ("image", .str c.image), ("type", .str c.type), ("privileged", .bool c.privileged)]
    | none => [])
  pure (("v", Value.str "0.2.0") :: ("type", typeV) :: (tsField, tsV) ::
        (tsField ++ "_uts", tsUtsV) ::
        (endPart ++ [("proc", procV), ("pproc", pprocV)] ++ opPart ++ opflagsPart ++
         retPart ++ netPart ++ filePart ++ volNet ++ volFile ++ [("cont", contV)]))

/-- Nested mapping lookup `v[kk]`: KeyError when the key is missing,
TypeError when indexing a non-mapping with a string key. -/
def valueLookup : Value → String → Except PyError Value
  | .obj l, k =>
    match alook l k with
    | some v => .ok v
    | none => .error (.keyError k)
  | _, _ => .error .typeError

/-- The output-side step `o[kk] = OrderedDict() if kk not in o else o[kk]`
followed by descending into `o[kk]`: yields the sub-mapping to continue in,
or a TypeError when the existing entry is not a mapping. -/
def subFor (o : List (String × Value)) (k : String) :
    Except PyError (List (String × Value)) :=
  match alook o k with
  | none => .ok []
  | some (.obj l) => .ok l
  | some _ => .error .typeError

/-- One dotted-path step of the recursive projection in `_flatten2`: walk the
segments, creating intermediate sub-mappings in the output as needed, and
assign the source leaf value at the end (`lo[lk] = v`).  The in-place dict
mutation of the source loop is modelled functionally. -/
def projectPath (o : List (String × Value)) (v : Value) :
    List String → Except PyError (List (String × Value))
  | [] => .ok o
  | [k] => do
    let v' ← valueLookup v k
    pure (odSet o k v')
  | k :: k' :: ks => do
    let v' ← valueLookup v k
    let sub ← subFor o k
    let sub' ← projectPath sub v' (k' :: ks)
    pure (odSet o k (.obj sub'))

/-- Python `k.split('.')`: split on every dot, keeping empty pieces. -/
def splitDotAux : List Char → List Char → List String
  | [], acc => [String.mk acc.reverse]
  | c :: cs, acc =>
    if c = '.' then String.mk acc.reverse :: splitDotAux cs []
    else splitDotAux cs (c :: acc)

def splitDot (s : String) : List String :=
  splitDotAux s.data []

/-- The outer projection loop of `_flatten2` over the requested dotted keys. -/
def projLoop2 (src : Value) (od : List (String × Value)) :
    List String → Except PyError (List (String × Value))
  | [] => .ok od
  | k :: ks => do
    let od' ← projectPath od src (splitDot k)
    projLoop2 src od' ks

/-- `SFFormatter._flatten2`: build the versioned nested mapping, then
(`if fields:`) apply the recursive dotted-path projection, seeding the output
with the `v` version key. -/
def _flatten2 (H : Helpers) (objtype : ObjectTypes) (header : Option Unit)
    (cont : Option Container) (pproc proc : Option Process)
    (files : Option (Option SFFile × Option SFFile))
    (evt : Option Event) (flow : Option Flow) (fields : Option (List String)) :
    Except PyError (List (String × Value)) := do
  let m ← _flatten2_map H objtype header cont pproc proc files evt flow
  match fields with
  | some fs =>
    if fs.isEmpty then pure m
    else do
      let v0 ← valueLookup (Value.obj m) "v"
      projLoop2 (Value.obj m) [("v", v0)] fs
  | none => pure m

/-- A record tuple as yielded by the external `FlattenedSFReader` and unpacked
into `_flatten(*r, fields)`. -/
structure SFRecord where
  objtype : ObjectTypes
  header : Option Unit
  cont : Option Container
  pproc : Option Process
  proc : Option Process
  files : Option (Option SFFile × Option SFFile)
  evt : Option Event
  flow : Option Flow

def flattenRec (H : Helpers) (r : SFRecord) (fields : Option (List String)) :
    Except PyError (List (String × Value)) :=
  _flatten H r.objtype r.header r.cont r.pproc r.proc r.files r.evt r.flow fields

def flatten2Rec (H : Helpers) (r : SFRecord) (fields : Option (List String)) :
    Except PyError (List (String × Value)) :=
  _flatten2 H r.objtype r.header r.cont r.pproc r.proc r.files r.evt r.flow fields

/-- Error-propagating map over a list, in element order (the renderers' loops). -/
def mapE (f : α → Except PyError β) : List α → Except PyError (List β)
  | [] => .ok []
  | a :: l => do
    let b ← f a
    let bs ← mapE f l
    pure (b :: bs)

/-- Python `str()` of a scalar value, as a character list. -/
def pyStr : Value → List Char
  | .str s => s.data
  | .int n => (toString n).data
  | .bool b => if b then "True".data else "False".data
  | .obj _ => "{}".data

/-- Left-justify to width `w` with spaces (the format-string padding). -/
def ljust (s : List Char) (w : Nat) : List Char :=
  s ++ List.replicate (w - s.length) ' '

/-- One tabular cell: pad the value to width `w`, truncate to `w` characters,
and append the two-character ellipsis marker when the padded string was longer
than `w` (the source writes this as `data[:w] + (data[w:] and two dots)`). -/
def formatCell (v : Value) (w : Nat) : List Char :=
  let data := ljust (pyStr v) w
  data.take w ++ (if w < data.length then ['.', '.'] else [])

/-- `OrderedDict.move_to_end(k, last=False)`: move the entry for `k` to the
front, keeping everything else in order. -/
def moveToFront (l : List (String × Value)) (k : String) : List (String × Value) :=
  l.filter (fun p => p.1 == k) ++ l.filter (fun p => !(p.1 == k))

/-- One cell of the tabular row: look up the column width (KeyError when the
key has no column) and pad/truncate the value to width plus two. -/
def cellStep (kv : String × Value) : Except PyError (String × List Char) :=
  match alook _colwidths kv.1 with
  | some w => pure (kv.1, formatCell kv.2 (w + 2))
  | none => Except.error (PyError.keyError kv.1)

/-- Per-record row preparation in `toStdOut`: optionally prepend the running
index, then pad/truncate every cell to its column width plus two. -/
def formatRecord (m : List (String × Value)) (idx : Nat) (showindex : Bool) :
    Except PyError (List (String × List Char)) :=
  let m1 := if showindex then moveToFront (odSet m "idx" (.int idx)) "idx" else m
  mapE cellStep m1

/-- The page-buffering loop of `toStdOut`: a record is appended to the buffer
and then, when its positive index is divisible by 1000, the buffer is flushed
as one table block; the boolean marks whether the block is printed with
headers (only the very first one is).  A non-empty remainder is flushed at
end of stream. -/
def pagesAux : List α → Nat → List α → Bool → List (Bool × List α)
  | [], _, buf, first => if buf.length > 0 then [(first, buf.reverse)] else []
  | r :: rest, idx, buf, first =>
    let buf' := r :: buf
    if idx > 0 ∧ idx % 1000 = 0 then
      (first, buf'.reverse) :: pagesAux rest (idx + 1) [] false
    else
      pagesAux rest (idx + 1) buf' first

def enumFrom (i : Nat) : List α → List (Nat × α)
  | [] => []
  | a :: l => (i, a) :: enumFrom (i + 1) l

/-- The body of the `toStdOut` loop for one enumerated record: flatten with
the effective field list, then format the row's cells. -/
def stdoutStep (H : Helpers) (flds : List String) (showindex : Bool)
    (p : Nat × SFRecord) : Except PyError (List (String × List Char)) := do
  let record ← flattenRec H p.2 (some flds)
  formatRecord record p.1 showindex

/-- `SFFormatter.toStdOut`: flatten each record with the supplied fields
(defaulting to `_default_fields`), format its cells, and emit the sequence of
flushed table blocks.  Blocks are collected after formatting; the streaming
interleaving of the source only differs from this on error paths. -/
def toStdOut (H : Helpers) (recs : List SFRecord) (fields : Option (List String))
    (showindex : Bool) :
    Except PyError (List (Bool × List (List (String × List Char)))) := do
  let flds := fields.getD _default_fields
  let rows ← mapE (stdoutStep H flds showindex) (enumFrom 0 recs)
  pure (pagesAux rows 0 [] true)

/-- `csv.DictWriter.writerow`: raises ValueError on keys outside `fieldnames`
(`extrasaction` defaults to raise), and writes cells in `fieldnames` order. -/
def dictWriterRow (fieldnames : List String) (m : List (String × Value)) :
    Except PyError (List Value) :=
  if m.all (fun p => fieldnames.contains p.1) then
    .ok (fieldnames.map (fun k => (alook m k).getD (Value.str "")))
  else
    .error .valueError

/-- The body of the `toCsvFile` loop for one record: flatten, then write the
row under the established fieldnames. -/
def csvStep (H : Helpers) (fieldnames : List String) (fields : Option (List String))
    (r : SFRecord) : Except PyError (List Value) := do
  let m ← flattenRec H r fields
  dictWriterRow fieldnames m

/-- `SFFormatter.toCsvFile`: the header row (written only when the header flag
is set and at least one record exists) is derived from the first record's
keys; every record is written as one row under those fieldnames. -/
def toCsvFile (H : Helpers) (recs : List SFRecord) (fields : Option (List String))
    (header : Bool) :
    Except PyError (Option (List String) × List (List Value)) :=
  match recs with
  | [] => .ok (none, [])
  | r0 :: _ => do
    let m0 ← flattenRec H r0 fields
    let fieldnames := m0.map Prod.fst
    let rows ← mapE (csvStep H fieldnames fields) recs
    pure (if header then some fieldnames else none, rows)

/-- `SFFormatter.toJsonStdOut`: one flattened legacy record per emitted line. -/
def toJsonStdOut (H : Helpers) (recs : List SFRecord) (fields : Option (List String)) :
    Except PyError (List (List (String × Value))) :=
  mapE (fun r => flattenRec H r fields) recs

/-- `SFFormatter.toJsonFile`: the whole array of flattened legacy records. -/
def toJsonFile (H : Helpers) (recs : List SFRecord) (fields : Option (List String)) :
    Except PyError (List (List (String × Value))) :=
  mapE (fun r => flattenRec H r fields) recs

def sampleProc : Process :=
  { oid := { hpid := 101, createTS := 5 }, uid := 0, userName := "root",
    gid := 0, groupName := "root", exe := "/bin/ls", exeArgs := "-l", tty := false }

def sampleEvent : Event :=
  { opFlags := 1, ret := 0, ts := 1000, tid := 101 }

def sampleFlow : Flow :=
  { opFlags := 2, ts := 1000, endTs := 2000, tid := 101, fd := 5, openFlags := 3,
    proto := 6, sport := 80, dport := 443, sip := 1, dip := 2,
    numRRecvBytes := 120, numRRecvOps := 3, numWSendBytes := 7, numWSendOps := 4 }

def sampleRecPE : SFRecord :=
  { objtype := .PROC_EVT, header := none, cont := none, pproc := none,
    proc := some sampleProc, files := none, evt := some sampleEvent, flow := none }

def sampleRecFF : SFRecord :=
  { objtype := .FILE_FLOW, header := none, cont := none, pproc := none,
    proc := some sampleProc,
    files := some (some { path := "/tmp/a" }, some { path := "/tmp/b" }),
    evt := none, flow := some sampleFlow }

def sampleRecNF : SFRecord :=
  { objtype := .NET_FLOW, header := none, cont := none, pproc := none,
    proc := some sampleProc, files := none, evt := none, flow := some sampleFlow }

example :
    Except.map (fun m => m.map Prod.fst)
      (_flatten defaultHelpers .PROC_EVT none none none (some sampleProc) none
        (some sampleEvent) none none) = .ok canonicalKeys := by
  rfl

example :
    Except.map (fun m => (alook m "res", alook m "fd", alook m "rcv_r_bytes",
        alook m "proto", alook m "sip"))
      (flattenRec defaultHelpers sampleRecFF none) =
      .ok (some (.str "/tmp/a, /tmp/b"), some (.int 5), some (.int 120),
           some (.str ""), some (.str "")) := by
  rfl

example :
    flatten2Rec defaultHelpers sampleRecPE (some ["proc.pid", "proc.uid"]) =
      .ok [("v", .str "0.2.0"),
           ("proc", .obj [("pid", .int 101), ("uid", .int 0)])] := by
  rfl

example :
    flatten2Rec defaultHelpers sampleRecPE (some ["pproc.pid"]) =
      .error (.keyError "pid") := by
  rfl

example :
    Except.map (fun P => P.map (fun b => b.2.length))
      (toStdOut defaultHelpers [sampleRecPE, sampleRecFF] none true) =
      .ok [2] := by
  rfl

/-! ### Basic lemmas about the embedding's building blocks -/

theorem exceptMap_ok {e : Except PyError α} {f : α → β} {b : β}
    (h : Except.map f e = .ok b) : ∃ a, e = .ok a ∧ f a = b := by
  cases e with
  | ok a => exact ⟨a, rfl, by simpa [Except.map] using h⟩
  | error _ => simp [Except.map] at h

theorem bindE_ok {e : Except PyError α} {f : α → Except PyError β} {b : β}
    (h : e >>= f = .ok b) : ∃ a, e = .ok a ∧ f a = .ok b := by
  cases e with
  | ok a => exact ⟨a, rfl, by simpa [Bind.bind, Except.bind] using h⟩
  | error _ => simp [Bind.bind, Except.bind] at h

theorem mapE_ok_forall {P : β → Prop} {f : α → Except PyError β} :
    ∀ {l : List α}, (∀ a ∈ l, ∃ b, f a = .ok b ∧ P b) →
    ∃ ys, mapE f l = .ok ys ∧ ys.length = l.length ∧ ∀ y ∈ ys, P y := by
  intro l
  induction l with
  | nil => exact fun _ => ⟨[], rfl, rfl, by simp⟩
  | cons a t ih =>
    intro h
    obtain ⟨b, hb, hPb⟩ := h a (by simp)
    obtain ⟨ys, hys, hlen, hP⟩ := ih (fun x hx => h x (by simp [hx]))
    refine ⟨b :: ys, ?_, by simp [hlen], ?_⟩
    · simp [mapE, hb, hys, Bind.bind, Except.bind, Pure.pure, Except.pure]
    · intro y hy
      rcases List.mem_cons.mp hy with h1 | h2
      · exact h1 ▸ hPb
      · exact hP y h2

theorem mapE_mem {f : α → Except PyError β} :
    ∀ {l : List α} {ys : List β}, mapE f l = .ok ys →
    ∀ a ∈ l, ∃ b, f a = .ok b ∧ b ∈ ys := by
  intro l
  induction l with
  | nil => intro ys _ a ha; simp at ha
  | cons x t ih =>
    intro ys h a ha
    obtain ⟨b, hb, hrest⟩ := bindE_ok (by simpa [mapE] using h)
    obtain ⟨bs, hbs, hcons⟩ := bindE_ok hrest
    have hys : ys = b :: bs := by
      simpa [Pure.pure, Except.pure] using hcons.symm
    rcases List.mem_cons.mp ha with h1 | h2
    · exact ⟨b, h1 ▸ hb, by simp [hys]⟩
    · obtain ⟨c, hc, hcm⟩ := ih hbs a h2
      exact ⟨c, hc, by simp [hys, hcm]⟩

theorem mapE_length {f : α → Except PyError β} :
    ∀ {l : List α} {ys : List β}, mapE f l = .ok ys → ys.length = l.length := by
  intro l
  induction l with
  | nil =>
    intro ys h
    simp [mapE, Pure.pure, Except.pure] at h
    simp [← h]
  | cons x t ih =>
    intro ys h
    obtain ⟨b, _, hrest⟩ := bindE_ok (by simpa [mapE] using h)
    obtain ⟨bs, hbs, hcons⟩ := bindE_ok hrest
    have hys : ys = b :: bs := by simpa [Pure.pure, Except.pure] using hcons.symm
    simp [hys, ih hbs]

theorem alook_of_mem_keys {m : List (String × Value)} {k : String}
    (h : k ∈ m.map Prod.fst) : ∃ v, alook m k = some v := by
  induction m with
  | nil => simp at h
  | cons p t ih =>
    by_cases hk : p.1 = k
    · exact ⟨p.2, by simp [alook, hk]⟩
    · have : k ∈ t.map Prod.fst := by
        rcases List.mem_map.mp h with ⟨q, hq, hfst⟩
        rcases List.mem_cons.mp hq with h1 | h2
        · exact absurd (h1 ▸ hfst) hk
        · exact List.mem_map.mpr ⟨q, h2, hfst⟩
      obtain ⟨v, hv⟩ := ih this
      exact ⟨v, by simp [alook, hk, hv]⟩

theorem alook_eq_none_of_not_mem {m : List (String × Value)} {k : String}
    (h : k ∉ m.map Prod.fst) : alook m k = none := by
  induction m with
  | nil => rfl
  | cons p t ih =>
    have h1 : ¬ p.1 = k := fun hk => h (by simp [hk])
    have h2 : k ∉ t.map Prod.fst := fun hk => h (by simp [hk])
    simp [alook, h1, ih h2]

theorem alook_cons_ne {p : String × Value} {t : List (String × Value)} {k : String}
    (h : ¬ p.1 = k) : alook (p :: t) k = alook t k := by
  cases p with
  | mk k' v => simp [alook, h]

theorem odSet_append {k : String} {v : Value} :
    ∀ {od : List (String × Value)}, k ∉ od.map Prod.fst →
    odSet od k v = od ++ [(k, v)] := by
  intro od
  induction od with
  | nil => intro _; rfl
  | cons p t ih =>
    intro h
    have h1 : ¬ p.1 = k := fun hk => h (by simp [hk])
    have h2 : k ∉ t.map Prod.fst := fun hk => h (by simp [hk])
    cases p with
    | mk k' v' => simp [odSet, h1, ih h2]

/-! ### Lemmas about the legacy projection loop -/

theorem projLoop_all_found {m : List (String × Value)} :
    ∀ {ks : List String} {o : List (String × Value)},
    (∀ k ∈ ks, k ∈ m.map Prod.fst) → ks.Nodup →
    (∀ k ∈ ks, k ∉ o.map Prod.fst) →
    projLoop m o ks = .ok (o ++ ks.map (fun k => (k, (alook m k).getD (.str "")))) := by
  intro ks
  induction ks with
  | nil => intro od _ _ _; simp [projLoop]
  | cons k t ih =>
    intro od hmem hnd hfresh
    obtain ⟨v, hv⟩ := alook_of_mem_keys (hmem k (by simp))
    have hset : odSet od k v = od ++ [(k, v)] := odSet_append (hfresh k (by simp))
    have hnd' := (List.nodup_cons.mp hnd).2
    have hknot := (List.nodup_cons.mp hnd).1
    have hfresh' : ∀ k' ∈ t, k' ∉ (od ++ [(k, v)]).map Prod.fst := by
      intro k' hk'
      simp only [List.map_append, List.mem_append]
      rintro (h1 | h2)
      · exact hfresh k' (by simp [hk']) h1
      · simp at h2
        exact hknot (h2 ▸ hk')
    calc projLoop m od (k :: t) = projLoop m (odSet od k v) t := by simp [projLoop, hv]
      _ = .ok ((od ++ [(k, v)]) ++ t.map (fun k => (k, (alook m k).getD (.str "")))) := by
          rw [hset]; exact ih (fun k' hk' => hmem k' (by simp [hk'])) hnd' hfresh'
      _ = .ok (od ++ (k :: t).map (fun k => (k, (alook m k).getD (.str "")))) := by
          simp [hv]

theorem keys_map_reconstruct {m : List (String × Value)}
    (hnd : (m.map Prod.fst).Nodup) :
    (m.map Prod.fst).map (fun k => (k, (alook m k).getD (.str ""))) = m := by
  induction m with
  | nil => rfl
  | cons p t ih =>
    cases p with
    | mk k v =>
      have hnd2 : (k :: t.map Prod.fst).Nodup := by simpa using hnd
      have hknot : k ∉ t.map Prod.fst := (List.nodup_cons.mp hnd2).1
      have hnd' : (t.map Prod.fst).Nodup := (List.nodup_cons.mp hnd2).2
      have hstep : ∀ k' ∈ t.map Prod.fst,
          ((alook ((k, v) :: t) k').getD (.str "")) = ((alook t k').getD (.str "")) := by
        intro k' hk'
        have : ¬ k = k' := fun he => hknot (he ▸ hk')
        simp [alook, this]
      simp only [List.map_cons, alook, if_pos rfl, Option.getD_some]
      congr 1
      calc (t.map Prod.fst).map (fun k' => (k', (alook ((k, v) :: t) k').getD (.str "")))
          = (t.map Prod.fst).map (fun k' => (k', (alook t k').getD (.str ""))) := by
            exact List.map_congr_left (fun k' hk' => by rw [hstep k' hk'])
        _ = t := ih hnd'

theorem projLoop_self {m : List (String × Value)}
    (hnd : (m.map Prod.fst).Nodup) :
    projLoop m [] (m.map Prod.fst) = .ok m := by
  have h := projLoop_all_found (m := m) (o := [])
    (fun k hk => hk) hnd (fun k _ h => by simp at h)
  rw [h, List.nil_append, keys_map_reconstruct hnd]

theorem projLoop_first_unknown {m : List (String × Value)}
    (hkeys : m.map Prod.fst = canonicalKeys) :
    ∀ {ks : List String} {od : List (String × Value)} {k0 : String},
    ks.find? (fun k => !(canonicalKeys.contains k)) = some k0 →
    projLoop m od ks = .error (.keyError k0) := by
  intro ks
  induction ks with
  | nil => intro od k0 h; simp at h
  | cons k t ih =>
    intro od k0 h
    rw [List.find?_cons] at h
    cases hck : canonicalKeys.contains k with
    | true =>
      have hmem : k ∈ m.map Prod.fst := by rw [hkeys]; simpa using hck
      obtain ⟨v, hv⟩ := alook_of_mem_keys hmem
      rw [hck] at h
      simp only [Bool.not_true] at h
      simp [projLoop, hv, ih h]
    | false =>
      rw [hck] at h
      simp only [Bool.not_false] at h
      have hk0 : k = k0 := Option.some.inj h
      subst hk0
      have hnot : k ∉ m.map Prod.fst := by rw [hkeys]; simpa using hck
      simp [projLoop, alook_eq_none_of_not_mem hnot]

/-! ### Shape lemmas for the legacy flattening -/

/-- Well-formedness of a record tuple, as needed for `_flatten` to complete:
the primary process is present (it is dereferenced unconditionally), the
event and flow sides are not simultaneously present, and flow variants carry
their flow. -/
def RecOK (r : SFRecord) : Prop :=
  r.proc.isSome = true ∧
  (r.flow.isSome = true → r.evt = none) ∧
  ((r.objtype = .FILE_FLOW ∨ r.objtype = .NET_FLOW) → r.flow.isSome = true)

theorem flatten_map_keys (H : Helpers) (ot : ObjectTypes) (hd : Option Unit)
    (cont : Option Container) (pproc : Option Process) (p : Process)
    (files : Option (Option SFFile × Option SFFile)) (evt : Option Event)
    (flow : Option Flow)
    (hef : flow.isSome = true → evt = none)
    (hfl : (ot = .FILE_FLOW ∨ ot = .NET_FLOW) → flow.isSome = true) :
    Except.map (fun m => m.map Prod.fst)
      (_flatten_map H ot hd cont pproc (some p) files evt flow) = .ok canonicalKeys := by
  cases flow with
  | some f =>
    have he : evt = none := hef rfl
    subst he
    cases ot <;> rfl
  | none =>
    have h1 : ¬ (ot = .FILE_FLOW ∨ ot = .NET_FLOW) := by
      intro hor
      exact absurd (hfl hor) (by simp)
    cases ot with
    | FILE_FLOW => exact absurd (Or.inl rfl) h1
    | NET_FLOW => exact absurd (Or.inr rfl) h1
    | PROC_EVT => cases evt <;> rfl
    | FILE_EVT => cases evt <;> rfl

theorem flatten_map_ok (H : Helpers) (ot : ObjectTypes) (hd : Option Unit)
    (cont : Option Container) (pproc : Option Process) (p : Process)
    (files : Option (Option SFFile × Option SFFile)) (evt : Option Event)
    (flow : Option Flow)
    (hef : flow.isSome = true → evt = none)
    (hfl : (ot = .FILE_FLOW ∨ ot = .NET_FLOW) → flow.isSome = true) :
    ∃ m, _flatten_map H ot hd cont pproc (some p) files evt flow = .ok m ∧
      m.map Prod.fst = canonicalKeys := by
  obtain ⟨m, hm, hk⟩ := exceptMap_ok (flatten_map_keys H ot hd cont pproc p files evt flow hef hfl)
  exact ⟨m, hm, hk⟩

theorem flatten_none (H : Helpers) (ot : ObjectTypes) (hd : Option Unit)
    (cont : Option Container) (pproc proc : Option Process)
    (files : Option (Option SFFile × Option SFFile))
    (evt : Option Event) (flow : Option Flow) :
    _flatten H ot hd cont pproc proc files evt flow none =
      _flatten_map H ot hd cont pproc proc files evt flow := by
  unfold _flatten
  cases _flatten_map H ot hd cont pproc proc files evt flow <;> rfl

theorem flatten_some {m : List (String × Value)} (H : Helpers) (ot : ObjectTypes)
    (hd : Option Unit) (cont : Option Container) (pproc proc : Option Process)
    (files : Option (Option SFFile × Option SFFile))
    (evt : Option Event) (flow : Option Flow) {fs : List String}
    (hm : _flatten_map H ot hd cont pproc proc files evt flow = .ok m)
    (hne : fs ≠ []) :
    _flatten H ot hd cont pproc proc files evt flow (some fs) = projLoop m [] fs := by
  unfold _flatten
  rw [hm]
  cases fs with
  | nil => exact absurd rfl hne
  | cons a t => rfl

theorem flattenRec_none_ok {H : Helpers} {r : SFRecord} (hr : RecOK r) :
    ∃ m, flattenRec H r none = .ok m ∧ m.map Prod.fst = canonicalKeys := by
  obtain ⟨h1, h2, h3⟩ := hr
  obtain ⟨p, hp⟩ := Option.isSome_iff_exists.mp h1
  obtain ⟨m, hm, hk⟩ := flatten_map_ok H r.objtype r.header r.cont r.pproc p r.files
    r.evt r.flow h2 h3
  refine ⟨m, ?_, hk⟩
  rw [flattenRec, flatten_none, hp]
  exact hm

theorem canonicalKeys_nodup : canonicalKeys.Nodup := by decide

theorem dictWriterRow_canonical {m : List (String × Value)}
    (hk : m.map Prod.fst = canonicalKeys) :
    dictWriterRow canonicalKeys m =
      .ok (canonicalKeys.map (fun k => (alook m k).getD (Value.str ""))) := by
  have hall : m.all (fun p => canonicalKeys.contains p.1) = true := by
    simp only [List.all_eq_true, Prod.forall]
    intro a b hab
    exact List.elem_eq_true_of_mem (hk ▸ List.mem_map_of_mem Prod.fst hab)
  rw [dictWriterRow, if_pos hall]

/-- CSV export of well-formed records: canonical header, rows of canonical
arity. -/
theorem toCsvFile_canonical :
    ∀ (H : Helpers) (recs : List SFRecord), recs ≠ [] → (∀ r ∈ recs, RecOK r) →
      ∃ rows, toCsvFile H recs none true = .ok (some canonicalKeys, rows) ∧
        rows.length = recs.length ∧
        ∀ row ∈ rows, row.length = canonicalKeys.length := by
  intro H recs hne hall
  cases recs with
    | nil => exact absurd rfl hne
    | cons r0 rest =>
      obtain ⟨m0, hm0, hk0⟩ := flattenRec_none_ok (hall r0 (by simp))
      have hstep : ∀ r ∈ r0 :: rest, ∃ row,
          csvStep H (m0.map Prod.fst) none r = .ok row ∧
          row.length = canonicalKeys.length := by
        intro r hrm
        obtain ⟨m, hm, hk⟩ := flattenRec_none_ok (hall r hrm)
        refine ⟨canonicalKeys.map (fun k => (alook m k).getD (Value.str "")), ?_, by simp⟩
        rw [csvStep, hm]
        simp only [Bind.bind, Except.bind]
        rw [hk0]
        exact dictWriterRow_canonical hk
      obtain ⟨rows, hrows, hlen, hP⟩ := mapE_ok_forall hstep
      refine ⟨rows, ?_, by simpa using hlen, hP⟩
      show (do
        let m0' ← flattenRec H r0 none
        let rows' ← mapE (csvStep H (m0'.map Prod.fst) none) (r0 :: rest)
        pure (if true then some (m0'.map Prod.fst) else none, rows')) =
        Except.ok (some canonicalKeys, rows)
      rw [hm0]
      simp only [Bind.bind, Except.bind]
      rw [hrows]
      simp [hk0, Pure.pure, Except.pure]

/-- C1, claim as stated.  Every record that flattens successfully yields the
fixed canonical key sequence, and CSV export therefore produces a header equal
to the canonical keys with every row of exactly that arity. -/
theorem claim1_legacy_keys_and_csv :
    (∀ (H : Helpers) (r : SFRecord), RecOK r →
      Except.map (fun m => m.map Prod.fst) (flattenRec H r none) = .ok canonicalKeys) ∧
    (∀ (H : Helpers) (recs : List SFRecord), recs ≠ [] → (∀ r ∈ recs, RecOK r) →
      ∃ rows, toCsvFile H recs none true = .ok (some canonicalKeys, rows) ∧
        rows.length = recs.length ∧
        ∀ row ∈ rows, row.length = canonicalKeys.length) := by
  constructor
  · intro H r hr
    obtain ⟨m, hm, hk⟩ := flattenRec_none_ok hr
    rw [hm]
    simp [Except.map, hk]
  · exact toCsvFile_canonical

/-- Witness for C1 at a concrete process-event record. -/
theorem claim1_witness :
    (RecOK sampleRecPE ∧
      Except.map (fun m => m.map Prod.fst)
        (flattenRec defaultHelpers sampleRecPE none) = .ok canonicalKeys) ∧
    ∃ rows, toCsvFile defaultHelpers [sampleRecPE] none true =
        .ok (some canonicalKeys, rows) ∧ rows.length = 1 ∧
        ∀ row ∈ rows, row.length = canonicalKeys.length := by
  have hok : RecOK sampleRecPE := by
    refine ⟨rfl, ?_, ?_⟩
    · intro h
      simp [sampleRecPE] at h
    · rintro (h | h) <;> simp [sampleRecPE] at h
  refine ⟨⟨hok, claim1_legacy_keys_and_csv.1 defaultHelpers sampleRecPE hok⟩, ?_⟩
  obtain ⟨rows, h1, h2, h3⟩ := claim1_legacy_keys_and_csv.2 defaultHelpers [sampleRecPE]
    (by simp) (by intro r hr; rw [List.mem_singleton.mp hr]; exact hok)
  exact ⟨rows, h1, by simpa using h2, h3⟩

/-- C10: `_flatten` dereferences `proc.oid.hpid` before any presence guard, so
it fails with an AttributeError whenever `proc` is absent, for every variant
and field selection; and when `proc` is present, every successful legacy
flatten carries all `proc_*` fields populated from the process (the
`proc is not None` guards never take their empty-string branch). -/
theorem claim10_proc_deref :
    (∀ (H : Helpers) (ot : ObjectTypes) (hd : Option Unit) (cont : Option Container)
      (pproc : Option Process) (files : Option (Option SFFile × Option SFFile))
      (evt : Option Event) (flow : Option Flow) (fields : Option (List String)),
      _flatten H ot hd cont pproc none files evt flow fields =
        .error .attributeError) ∧
    (∀ (H : Helpers) (ot : ObjectTypes) (hd : Option Unit) (cont : Option Container)
      (pproc : Option Process) (p : Process)
      (files : Option (Option SFFile × Option SFFile)) (evt : Option Event)
      (flow : Option Flow),
      (flow.isSome = true → evt = none) →
      ((ot = .FILE_FLOW ∨ ot = .NET_FLOW) → flow.isSome = true) →
      Except.map (fun m => (alook m "proc_uid", alook m "proc_user", alook m "proc_gid",
          alook m "proc_group", alook m "proc_exe", alook m "proc_args",
          alook m "proc_tty", alook m "proc_create_ts"))
        (_flatten H ot hd cont pproc (some p) files evt flow none) =
        .ok (some (.int p.uid), some (.str p.userName), some (.int p.gid),
             some (.str p.groupName), some (.str p.exe), some (.str p.exeArgs),
             some (.bool p.tty), some (.int p.oid.createTS))) := by
  constructor
  · intro H ot hd cont pproc files evt flow fields
    cases evt <;> cases flow <;> rfl
  · intro H ot hd cont pproc p files evt flow hef hfl
    cases flow with
    | some f =>
      have he : evt = none := hef rfl
      subst he
      cases ot <;> rfl
    | none =>
      have h1 : ¬ (ot = .FILE_FLOW ∨ ot = .NET_FLOW) := by
        intro hor
        exact absurd (hfl hor) (by simp)
      cases ot with
      | FILE_FLOW => exact absurd (Or.inl rfl) h1
      | NET_FLOW => exact absurd (Or.inr rfl) h1
      | PROC_EVT => cases evt <;> rfl
      | FILE_EVT => cases evt <;> rfl

/-- Witness for C10: a record with `proc` absent fails with AttributeError; the
sample process-event record has every `proc_*` field populated. -/
theorem claim10_witness :
    _flatten defaultHelpers .PROC_EVT none none none none none (some sampleEvent)
        none none = .error .attributeError ∧
    Except.map (fun m => (alook m "proc_uid", alook m "proc_user", alook m "proc_gid",
        alook m "proc_group", alook m "proc_exe", alook m "proc_args",
        alook m "proc_tty", alook m "proc_create_ts"))
      (_flatten defaultHelpers .PROC_EVT none none none (some sampleProc) none
        (some sampleEvent) none none) =
      .ok (some (.int sampleProc.uid), some (.str sampleProc.userName),
           some (.int sampleProc.gid), some (.str sampleProc.groupName),
           some (.str sampleProc.exe), some (.str sampleProc.exeArgs),
           some (.bool sampleProc.tty), some (.int sampleProc.oid.createTS)) := by
  exact ⟨claim10_proc_deref.1 defaultHelpers .PROC_EVT none none none none
      (some sampleEvent) none none,
    claim10_proc_deref.2 defaultHelpers .PROC_EVT none none none sampleProc none
      (some sampleEvent) none (by simp) (by simp)⟩

/-- C6: the legacy `res` field is variant-dependent — the first file's path for
file variants (with the second path appended after a comma-space separator when
present), the external flow-endpoint string for network flows, and empty
otherwise. -/
theorem claim6_res_field :
    (∀ (H : Helpers) (ot : ObjectTypes) (hd : Option Unit) (cont : Option Container)
      (pproc : Option Process) (p : Process) (f1 : SFFile) (evt : Option Event)
      (flow : Option Flow),
      (ot = .FILE_FLOW ∨ ot = .FILE_EVT) →
      (flow.isSome = true → evt = none) →
      ((ot = .FILE_FLOW ∨ ot = .NET_FLOW) → flow.isSome = true) →
      Except.map (fun m => alook m "res")
        (_flatten H ot hd cont pproc (some p) (some (some f1, none)) evt flow none) =
        .ok (some (.str f1.path))) ∧
    (∀ (H : Helpers) (ot : ObjectTypes) (hd : Option Unit) (cont : Option Container)
      (pproc : Option Process) (p : Process) (f1 f2 : SFFile) (evt : Option Event)
      (flow : Option Flow),
      (ot = .FILE_FLOW ∨ ot = .FILE_EVT) →
      (flow.isSome = true → evt = none) →
      ((ot = .FILE_FLOW ∨ ot = .NET_FLOW) → flow.isSome = true) →
      Except.map (fun m => alook m "res")
        (_flatten H ot hd cont pproc (some p) (some (some f1, some f2)) evt flow none) =
        .ok (some (.str (f1.path ++ ", " ++ f2.path)))) ∧
    (∀ (H : Helpers) (hd : Option Unit) (cont : Option Container)
      (pproc : Option Process) (p : Process)
      (files : Option (Option SFFile × Option SFFile)) (f : Flow),
      Except.map (fun m => alook m "res")
        (_flatten H .NET_FLOW hd cont pproc (some p) files none (some f) none) =
        .ok (some (.str (H.getNetFlowStr (some f))))) ∧
    (∀ (H : Helpers) (hd : Option Unit) (cont : Option Container)
      (pproc : Option Process) (p : Process)
      (files : Option (Option SFFile × Option SFFile)) (evt : Option Event)
      (flow : Option Flow),
      (flow.isSome = true → evt = none) →
      Except.map (fun m => alook m "res")
        (_flatten H .PROC_EVT hd cont pproc (some p) files evt flow none) =
        .ok (some (.str ""))) := by
  refine ⟨?_, ?_, ?_, ?_⟩
  · intro H ot hd cont pproc p f1 evt flow hot hef hfl
    have hone : (f1.path ++ "" : String) = f1.path := by simp
    rcases hot with h | h <;> subst h
    · obtain ⟨f, hf⟩ := Option.isSome_iff_exists.mp (hfl (Or.inl rfl))
      subst hf
      have he : evt = none := hef rfl
      subst he
      exact hone ▸ (rfl :
        Except.map (fun m => alook m "res")
          (_flatten H .FILE_FLOW hd cont pproc (some p) (some (some f1, none))
            none (some f) none) =
        .ok (some (.str (f1.path ++ ""))))
    · cases flow with
      | some f =>
        have he : evt = none := hef rfl
        subst he
        exact hone ▸ (rfl :
          Except.map (fun m => alook m "res")
            (_flatten H .FILE_EVT hd cont pproc (some p) (some (some f1, none))
              none (some f) none) =
          .ok (some (.str (f1.path ++ ""))))
      | none =>
        cases evt with
        | some e =>
          exact hone ▸ (rfl :
            Except.map (fun m => alook m "res")
              (_flatten H .FILE_EVT hd cont pproc (some p) (some (some f1, none))
                (some e) none none) =
            .ok (some (.str (f1.path ++ ""))))
        | none =>
          exact hone ▸ (rfl :
            Except.map (fun m => alook m "res")
              (_flatten H .FILE_EVT hd cont pproc (some p) (some (some f1, none))
                none none none) =
            .ok (some (.str (f1.path ++ ""))))
  · intro H ot hd cont pproc p f1 f2 evt flow hot hef hfl
    have hassoc : (f1.path ++ (", " ++ f2.path) : String) = f1.path ++ ", " ++ f2.path :=
      (String.append_assoc f1.path ", " f2.path).symm
    rcases hot with h | h <;> subst h
    · obtain ⟨f, hf⟩ := Option.isSome_iff_exists.mp (hfl (Or.inl rfl))
      subst hf
      have he : evt = none := hef rfl
      subst he
      exact hassoc ▸ (rfl :
        Except.map (fun m => alook m "res")
          (_flatten H .FILE_FLOW hd cont pproc (some p) (some (some f1, some f2))
            none (some f) none) =
        .ok (some (.str (f1.path ++ (", " ++ f2.path)))))
    · cases flow with
      | some f =>
        have he : evt = none := hef rfl
        subst he
        exact hassoc ▸ (rfl :
          Except.map (fun m => alook m "res")
            (_flatten H .FILE_EVT hd cont pproc (some p) (some (some f1, some f2))
              none (some f) none) =
          .ok (some (.str (f1.path ++ (", " ++ f2.path)))))
      | none =>
        cases evt with
        | some e =>
          exact hassoc ▸ (rfl :
            Except.map (fun m => alook m "res")
              (_flatten H .FILE_EVT hd cont pproc (some p) (some (some f1, some f2))
                (some e) none none) =
            .ok (some (.str (f1.path ++ (", " ++ f2.path)))))
        | none =>
          exact hassoc ▸ (rfl :
            Except.map (fun m => alook m "res")
              (_flatten H .FILE_EVT hd cont pproc (some p) (some (some f1, some f2))
                none none none) =
            .ok (some (.str (f1.path ++ (", " ++ f2.path)))))
  · intro H hd cont pproc p files f
    rfl
  · intro H hd cont pproc p files evt flow hef
    cases flow with
    | some f =>
      have he : evt = none := hef rfl
      subst he
      rfl
    | none => cases evt <;> rfl

/-- Witness for C6 at concrete file-flow and network-flow records. -/
theorem claim6_witness :
    Except.map (fun m => alook m "res")
      (_flatten defaultHelpers .FILE_EVT none none none (some sampleProc)
        (some (some { path := "/tmp/a" }, none)) (some sampleEvent) none none) =
      .ok (some (.str "/tmp/a")) ∧
    Except.map (fun m => alook m "res")
      (_flatten defaultHelpers .FILE_FLOW none none none (some sampleProc)
        (some (some { path := "/tmp/a" }, some { path := "/tmp/b" })) none
        (some sampleFlow) none) =
      .ok (some (.str "/tmp/a, /tmp/b")) ∧
    Except.map (fun m => alook m "res")
      (_flatten defaultHelpers .NET_FLOW none none none (some sampleProc) none
        none (some sampleFlow) none) =
      .ok (some (.str (defaultHelpers.getNetFlowStr (some sampleFlow)))) ∧
    Except.map (fun m => alook m "res")
      (_flatten defaultHelpers .PROC_EVT none none none (some sampleProc) none
        (some sampleEvent) none none) =
      .ok (some (.str "")) := by
  refine ⟨?_, ?_, ?_, ?_⟩
  · exact claim6_res_field.1 defaultHelpers .FILE_EVT none none none sampleProc
      { path := "/tmp/a" } (some sampleEvent) none (Or.inr rfl) (by simp) (by simp)
  · exact claim6_res_field.2.1 defaultHelpers .FILE_FLOW none none none sampleProc
      { path := "/tmp/a" } { path := "/tmp/b" } none (some sampleFlow) (Or.inl rfl)
      (by simp) (by simp)
  · exact claim6_res_field.2.2.1 defaultHelpers none none none sampleProc none
      sampleFlow
  · exact claim6_res_field.2.2.2 defaultHelpers none none none sampleProc none
      (some sampleEvent) none (by simp)

/-- C8: with a non-empty legacy field list whose keys are canonical and
distinct, `_flatten` returns exactly the requested keys in the given order,
each bound to its value in the full canonical mapping; a requested key outside
the canonical key set aborts with a KeyError naming the first such key. -/
theorem claim8_legacy_projection :
    ∀ (H : Helpers) (ot : ObjectTypes) (hd : Option Unit) (cont : Option Container)
      (pproc : Option Process) (p : Process)
      (files : Option (Option SFFile × Option SFFile)) (evt : Option Event)
      (flow : Option Flow) (fs : List String),
      (flow.isSome = true → evt = none) →
      ((ot = .FILE_FLOW ∨ ot = .NET_FLOW) → flow.isSome = true) →
      fs ≠ [] →
      ((∀ k ∈ fs, k ∈ canonicalKeys) → fs.Nodup →
        ∃ m, _flatten H ot hd cont pproc (some p) files evt flow none = .ok m ∧
          _flatten H ot hd cont pproc (some p) files evt flow (some fs) =
            .ok (fs.map (fun k => (k, (alook m k).getD (.str ""))))) ∧
      (∀ k0, fs.find? (fun k => !(canonicalKeys.contains k)) = some k0 →
        _flatten H ot hd cont pproc (some p) files evt flow (some fs) =
          .error (.keyError k0)) := by
  intro H ot hd cont pproc p files evt flow fs hef hfl hne
  obtain ⟨m, hm, hk⟩ := flatten_map_ok H ot hd cont pproc p files evt flow hef hfl
  constructor
  · intro hmem hnd
    refine ⟨m, ?_, ?_⟩
    · rw [flatten_none]
      exact hm
    · rw [flatten_some H ot hd cont pproc (some p) files evt flow hm hne]
      have hpl := projLoop_all_found (m := m) (o := [])
        (fun k hk' => hk.symm ▸ hmem k hk') hnd (by intro k _ h; simp at h)
      rw [hpl, List.nil_append]
  · intro k0 hfind
    rw [flatten_some H ot hd cont pproc (some p) files evt flow hm hne]
    exact projLoop_first_unknown hk hfind

/-- Witness for C8: projecting two known keys, and failing on an unknown key. -/
theorem claim8_witness :
    (∃ m, flattenRec defaultHelpers sampleRecPE none = .ok m ∧
      _flatten defaultHelpers .PROC_EVT none none none (some sampleProc) none
        (some sampleEvent) none (some ["proc_exe", "ts"]) =
        .ok (["proc_exe", "ts"].map (fun k => (k, (alook m k).getD (.str ""))))) ∧
    _flatten defaultHelpers .PROC_EVT none none none (some sampleProc) none
      (some sampleEvent) none (some ["proc_exe", "nope"]) =
      .error (.keyError "nope") := by
  constructor
  · obtain ⟨m, hm, hp⟩ := (claim8_legacy_projection defaultHelpers .PROC_EVT none none
      none sampleProc none (some sampleEvent) none ["proc_exe", "ts"] (by simp)
      (by simp) (by simp)).1 (by decide) (by decide)
    exact ⟨m, hm, hp⟩
  · exact (claim8_legacy_projection defaultHelpers .PROC_EVT none none
      none sampleProc none (some sampleEvent) none ["proc_exe", "nope"] (by simp)
      (by simp) (by simp)).2 "nope" (by decide)

/-- C9: projecting with the explicit list of all canonical keys in canonical
order is the identity on the legacy flattening. -/
theorem claim9_roundtrip :
    ∀ (H : Helpers) (ot : ObjectTypes) (hd : Option Unit) (cont : Option Container)
      (pproc : Option Process) (p : Process)
      (files : Option (Option SFFile × Option SFFile)) (evt : Option Event)
      (flow : Option Flow),
      (flow.isSome = true → evt = none) →
      ((ot = .FILE_FLOW ∨ ot = .NET_FLOW) → flow.isSome = true) →
      _flatten H ot hd cont pproc (some p) files evt flow (some canonicalKeys) =
        _flatten H ot hd cont pproc (some p) files evt flow none := by
  intro H ot hd cont pproc p files evt flow hef hfl
  obtain ⟨m, hm, hk⟩ := flatten_map_ok H ot hd cont pproc p files evt flow hef hfl
  rw [flatten_none, hm,
    flatten_some H ot hd cont pproc (some p) files evt flow hm (by decide), ← hk]
  exact projLoop_self (hk.symm ▸ canonicalKeys_nodup)

/-- Witness for C9 at the sample process-event record. -/
theorem claim9_witness :
    _flatten defaultHelpers .PROC_EVT none none none (some sampleProc) none
      (some sampleEvent) none (some canonicalKeys) =
    _flatten defaultHelpers .PROC_EVT none none none (some sampleProc) none
      (some sampleEvent) none none :=
  claim9_roundtrip defaultHelpers .PROC_EVT none none none sampleProc none
    (some sampleEvent) none (by simp) (by simp)

theorem ljust_length (s : List Char) (w : Nat) :
    (ljust s w).length = max s.length w := by
  simp [ljust]
  omega

/-- C5: every tabular cell is the value left-justified and padded to the
column width plus two, truncated to that width, with the two-character
ellipsis marker appended exactly when the unpadded string representation is
longer than width plus two; `formatRecord` applies this to every cell with
the width taken from the per-key column-width table. -/
theorem claim5_cell_format :
    (∀ (v : Value) (w : Nat),
      formatCell v w =
        (ljust (pyStr v) w).take w ++
          (if w < (pyStr v).length then ['.', '.'] else [])) ∧
    (∀ (v : Value) (w : Nat), (pyStr v).length ≤ w →
      formatCell v w = ljust (pyStr v) w) ∧
    (∀ (v : Value) (w : Nat), w < (pyStr v).length →
      formatCell v w = (pyStr v).take w ++ ['.', '.']) ∧
    (∀ (m : List (String × Value)) (i : Nat) (si : Bool)
      (row : List (String × List Char)),
      formatRecord m i si = .ok row →
      ∀ kv ∈ (if si then moveToFront (odSet m "idx" (.int i)) "idx" else m),
        ∃ w, alook _colwidths kv.1 = some w ∧
          (kv.1, formatCell kv.2 (w + 2)) ∈ row) := by
  have hcond : ∀ (s : List Char) (w : Nat),
      (w < (ljust s w).length) = (w < s.length) := by
    intro s w
    rw [ljust_length]
    exact propext (by omega)
  refine ⟨?_, ?_, ?_, ?_⟩
  · intro v w
    rw [formatCell]
    simp only [hcond]
  · intro v w h
    have hlen : (ljust (pyStr v) w).length = w := by
      rw [ljust_length]
      omega
    rw [formatCell]
    simp only [hcond]
    rw [if_neg (Nat.not_lt.mpr h), List.append_nil]
    exact List.take_of_length_le (le_of_eq hlen)
  · intro v w h
    have hz : ljust (pyStr v) w = pyStr v := by
      have h0 : w - (pyStr v).length = 0 := by omega
      simp [ljust, h0]
    rw [formatCell]
    simp only [hcond]
    rw [hz, if_pos h]
  · intro m i si row hrow kv hkv
    have hmem := mapE_mem hrow kv hkv
    obtain ⟨b, hb, hbm⟩ := hmem
    rw [cellStep] at hb
    cases halook : alook _colwidths kv.1 with
    | none => rw [halook] at hb; exact absurd hb (by simp)
    | some w =>
      rw [halook] at hb
      refine ⟨w, rfl, ?_⟩
      have hbe : b = (kv.1, formatCell kv.2 (w + 2)) := by
        have hh := hb
        simp only [Pure.pure, Except.pure] at hh
        exact (Except.ok.inj hh).symm
      exact hbe ▸ hbm

/-- Witness for C5: a six-character value in a width-four column is truncated
and marked, a two-character value is padded unmarked, and a one-entry record
formats its cell through the column-width table. -/
theorem claim5_witness :
    ((pyStr (Value.str "ab")).length ≤ 4 ∧
      formatCell (.str "ab") 4 = ljust (pyStr (.str "ab")) 4) ∧
    (4 < (pyStr (Value.str "abcdef")).length ∧
      formatCell (.str "abcdef") 4 = (pyStr (.str "abcdef")).take 4 ++ ['.', '.']) ∧
    ∃ w, alook _colwidths "fd" = some w ∧
      ("fd", formatCell (Value.int 7) (w + 2)) ∈
        [("fd", formatCell (Value.int 7) 7)] := by
  refine ⟨⟨by decide, claim5_cell_format.2.1 (.str "ab") 4 (by decide)⟩,
    ⟨by decide, claim5_cell_format.2.2.1 (.str "abcdef") 4 (by decide)⟩, ?_⟩
  exact claim5_cell_format.2.2.2 [("fd", Value.int 7)] 0 false
    [("fd", formatCell (Value.int 7) 7)] rfl ("fd", Value.int 7) (by simp)

/-! ### Lemmas about the versioned projection -/

theorem odSet_head_ne {od : List (String × Value)} {x v : Value} {k : String}
    (hh : od.head? = some ("v", x)) (hk : k ≠ "v") :
    (odSet od k v).head? = some ("v", x) := by
  cases od with
  | nil => simp at hh
  | cons p t =>
    obtain ⟨hp1, hp2⟩ : p.1 = "v" ∧ p.2 = x := by
      have := Option.some.inj hh
      exact ⟨congrArg Prod.fst this, congrArg Prod.snd this⟩
    cases p with
    | mk k' v' =>
      simp only at hp1 hp2
      subst hp1 hp2
      have : ¬ ("v" : String) = k := fun h => hk h.symm
      simp [odSet, this]

theorem odSet_head_v {od : List (String × Value)} {x v : Value}
    (hh : od.head? = some ("v", x)) :
    (odSet od "v" v).head? = some ("v", v) := by
  cases od with
  | nil => simp at hh
  | cons p t =>
    have hp1 : p.1 = "v" := congrArg Prod.fst (Option.some.inj hh)
    cases p with
    | mk k' v' =>
      simp only at hp1
      subst hp1
      simp [odSet]

theorem alook_head_v {od : List (String × Value)} {x : Value}
    (hh : od.head? = some ("v", x)) : alook od "v" = some x := by
  cases od with
  | nil => simp at hh
  | cons p t =>
    obtain ⟨hp1, hp2⟩ : p.1 = "v" ∧ p.2 = x := by
      have := Option.some.inj hh
      exact ⟨congrArg Prod.fst this, congrArg Prod.snd this⟩
    cases p with
    | mk k' v' =>
      simp only at hp1 hp2
      subst hp1 hp2
      simp [alook]

theorem projectPath_head {m : List (String × Value)}
    (hm : alook m "v" = some (Value.str "0.2.0")) :
    ∀ (segs : List String) (o o' : List (String × Value)),
    o.head? = some ("v", Value.str "0.2.0") →
    projectPath o (Value.obj m) segs = .ok o' →
    o'.head? = some ("v", Value.str "0.2.0") := by
  intro segs
  match segs with
  | [] =>
    intro o o' hh hp
    have : o = o' := by simpa [projectPath] using hp
    exact this ▸ hh
  | [k] =>
    intro o o' hh hp
    obtain ⟨v', hv', hset⟩ := bindE_ok (by simpa [projectPath] using hp)
    have ho' : odSet o k v' = o' := by
      simpa [Pure.pure, Except.pure] using hset
    by_cases hk : k = "v"
    · subst hk
      rw [valueLookup, hm] at hv'
      simp at hv'
      subst hv'
      exact ho' ▸ odSet_head_v hh
    · exact ho' ▸ odSet_head_ne hh hk
  | k :: k' :: ks =>
    intro o o' hh hp
    obtain ⟨v', hv', hrest⟩ := bindE_ok (by simpa [projectPath] using hp)
    by_cases hk : k = "v"
    · subst hk
      obtain ⟨sub, hsub, hrest2⟩ := bindE_ok hrest
      rw [subFor, alook_head_v hh] at hsub
      simp at hsub
    · obtain ⟨sub, hsub, hrest2⟩ := bindE_ok hrest
      obtain ⟨sub', hsub', hset⟩ := bindE_ok hrest2
      have ho' : odSet o k (.obj sub') = o' := by
        simpa [Pure.pure, Except.pure] using hset
      exact ho' ▸ odSet_head_ne hh hk

theorem projLoop2_head {m : List (String × Value)}
    (hm : alook m "v" = some (Value.str "0.2.0")) :
    ∀ (fs : List String) (od od' : List (String × Value)),
    od.head? = some ("v", Value.str "0.2.0") →
    projLoop2 (Value.obj m) od fs = .ok od' →
    od'.head? = some ("v", Value.str "0.2.0") := by
  intro fs
  induction fs with
  | nil =>
    intro od od' hh hp
    have : od = od' := by simpa [projLoop2] using hp
    exact this ▸ hh
  | cons k t ih =>
    intro od od' hh hp
    obtain ⟨od1, h1, h2⟩ := bindE_ok (by simpa [projLoop2] using hp)
    exact ih od1 od' (projectPath_head hm (splitDot k) od od1 hh h1) h2

/-- Every successfully built versioned mapping starts with the version entry. -/
theorem flatten2_map_shape {H : Helpers} {ot : ObjectTypes} {hd : Option Unit}
    {cont : Option Container} {pproc proc : Option Process}
    {files : Option (Option SFFile × Option SFFile)}
    {evt : Option Event} {flow : Option Flow} {m : List (String × Value)}
    (h : _flatten2_map H ot hd cont pproc proc files evt flow = .ok m) :
    ∃ t, m = ("v", Value.str "0.2.0") :: t := by
  cases evt <;> cases flow <;> cases ot <;>
    first
      | exact ⟨_, (Except.ok.inj h).symm⟩
      | exact Except.noConfusion h

/-- C7: versioned projection always places the version key first, and
projecting `proc.pid` and `proc.uid` from a record with a present process
yields exactly the version entry plus one merged `proc` sub-mapping holding
the two requested leaves. -/
theorem claim7_versioned_projection :
    (∀ (H : Helpers) (ot : ObjectTypes) (hd : Option Unit) (cont : Option Container)
      (pproc proc : Option Process) (files : Option (Option SFFile × Option SFFile))
      (evt : Option Event) (flow : Option Flow) (fs : List String)
      (od : List (String × Value)),
      _flatten2 H ot hd cont pproc proc files evt flow (some fs) = .ok od →
      od.head? = some ("v", Value.str "0.2.0")) ∧
    (∀ (H : Helpers) (ot : ObjectTypes) (hd : Option Unit) (cont : Option Container)
      (pproc : Option Process) (p : Process)
      (files : Option (Option SFFile × Option SFFile)) (evt : Option Event)
      (flow : Option Flow),
      (flow.isSome = true → evt = none) →
      ((ot = .FILE_FLOW ∨ ot = .NET_FLOW) → flow.isSome = true) →
      _flatten2 H ot hd cont pproc (some p) files evt flow
          (some ["proc.pid", "proc.uid"]) =
        .ok [("v", .str "0.2.0"),
             ("proc", .obj [("pid", .int p.oid.hpid), ("uid", .int p.uid)])]) := by
  constructor
  · intro H ot hd cont pproc proc files evt flow fs od hok
    obtain ⟨m, hm, hrest⟩ := bindE_ok (by simpa [_flatten2] using hok)
    obtain ⟨t, hshape⟩ := flatten2_map_shape hm
    have hheadm : m.head? = some ("v", Value.str "0.2.0") := by simp [hshape]
    have halm : alook m "v" = some (Value.str "0.2.0") := alook_head_v hheadm
    cases fs with
    | nil =>
      have : m = od := by simpa [Pure.pure, Except.pure] using hrest
      exact this ▸ hheadm
    | cons k t' =>
      obtain ⟨v0, hv0, hloop⟩ := bindE_ok (by simpa using hrest)
      rw [valueLookup, halm] at hv0
      simp at hv0
      subst hv0
      exact projLoop2_head halm (k :: t') [("v", Value.str "0.2.0")] od (by simp) hloop
  · intro H ot hd cont pproc p files evt flow hef hfl
    cases flow with
    | some f =>
      have he : evt = none := hef rfl
      subst he
      cases ot <;> rfl
    | none =>
      have h1 : ¬ (ot = .FILE_FLOW ∨ ot = .NET_FLOW) := by
        intro hor
        exact absurd (hfl hor) (by simp)
      cases ot with
      | FILE_FLOW => exact absurd (Or.inl rfl) h1
      | NET_FLOW => exact absurd (Or.inr rfl) h1
      | PROC_EVT => cases evt <;> rfl
      | FILE_EVT => cases evt <;> rfl

/-- Witness for C7: the sample record's projection output, and its head. -/
theorem claim7_witness :
    flatten2Rec defaultHelpers sampleRecPE (some ["proc.pid", "proc.uid"]) =
      .ok [("v", .str "0.2.0"),
           ("proc", .obj [("pid", .int 101), ("uid", .int 0)])] ∧
    ∀ od, flatten2Rec defaultHelpers sampleRecPE (some ["proc.pid", "proc.uid"]) =
        .ok od → od.head? = some ("v", Value.str "0.2.0") := by
  constructor
  · exact claim7_versioned_projection.2 defaultHelpers .PROC_EVT none none none
      sampleProc none (some sampleEvent) none (by simp) (by simp)
  · intro od hod
    exact claim7_versioned_projection.1 defaultHelpers .PROC_EVT none none none
      (some sampleProc) none (some sampleEvent) none ["proc.pid", "proc.uid"] od hod

/-- C3, counterexample to the claim as stated: on a record whose parent
process is absent (`pproc` sub-mapping is the empty mapping), the dotted key
`pproc.pid` does not succeed — it raises a missing-key error for `pid`. -/
theorem claim3_counterexample :
    flatten2Rec defaultHelpers sampleRecPE (some ["pproc.pid"]) =
      .error (.keyError "pid") := by
  rfl

/-- C3 as amended: a dotted key whose path does not exist anywhere in the
source mapping fails with a missing-key error naming its first segment, and a
dotted key whose leaf lies under a structurally valid but empty sub-mapping
also fails, with a missing-key error naming the leaf (it does not succeed). -/
theorem claim3_amended_projection_errors :
    (∀ (H : Helpers) (ot : ObjectTypes) (hd : Option Unit) (cont : Option Container)
      (pproc proc : Option Process) (files : Option (Option SFFile × Option SFFile))
      (evt : Option Event) (flow : Option Flow),
      (flow.isSome = true → evt = none) →
      ((ot = .FILE_FLOW ∨ ot = .NET_FLOW) → flow.isSome = true) →
      _flatten2 H ot hd cont pproc proc files evt flow (some ["bogus.key"]) =
        .error (.keyError "bogus")) ∧
    (∀ (H : Helpers) (ot : ObjectTypes) (hd : Option Unit) (cont : Option Container)
      (proc : Option Process) (files : Option (Option SFFile × Option SFFile))
      (evt : Option Event) (flow : Option Flow),
      (flow.isSome = true → evt = none) →
      ((ot = .FILE_FLOW ∨ ot = .NET_FLOW) → flow.isSome = true) →
      _flatten2 H ot hd cont none proc files evt flow (some ["pproc.pid"]) =
        .error (.keyError "pid")) := by
  constructor
  · intro H ot hd cont pproc proc files evt flow hef hfl
    cases flow with
    | some f =>
      have he : evt = none := hef rfl
      subst he
      cases ot with
      | FILE_FLOW => rcases files with _ | ⟨_ | f1, _ | f2⟩ <;> rfl
      | FILE_EVT => rcases files with _ | ⟨_ | f1, _ | f2⟩ <;> rfl
      | PROC_EVT => rfl
      | NET_FLOW => rfl
    | none =>
      have h1 : ¬ (ot = .FILE_FLOW ∨ ot = .NET_FLOW) := by
        intro hor
        exact absurd (hfl hor) (by simp)
      cases ot with
      | FILE_FLOW => exact absurd (Or.inl rfl) h1
      | NET_FLOW => exact absurd (Or.inr rfl) h1
      | PROC_EVT => cases evt <;> rfl
      | FILE_EVT =>
        cases evt <;> rcases files with _ | ⟨_ | f1, _ | f2⟩ <;> rfl
  · intro H ot hd cont proc files evt flow hef hfl
    cases flow with
    | some f =>
      have he : evt = none := hef rfl
      subst he
      cases ot <;> rfl
    | none =>
      have h1 : ¬ (ot = .FILE_FLOW ∨ ot = .NET_FLOW) := by
        intro hor
        exact absurd (hfl hor) (by simp)
      cases ot with
      | FILE_FLOW => exact absurd (Or.inl rfl) h1
      | NET_FLOW => exact absurd (Or.inr rfl) h1
      | PROC_EVT => cases evt <;> rfl
      | FILE_EVT => cases evt <;> rfl

/-- Witness for the amended C3 at concrete records. -/
theorem claim3_witness :
    flatten2Rec defaultHelpers sampleRecNF (some ["bogus.key"]) =
      .error (.keyError "bogus") ∧
    flatten2Rec defaultHelpers sampleRecFF (some ["pproc.pid"]) =
      .error (.keyError "pid") := by
  constructor
  · exact claim3_amended_projection_errors.1 defaultHelpers .NET_FLOW none none none
      (some sampleProc) none none (some sampleFlow) (by simp) (by simp)
  · exact claim3_amended_projection_errors.2 defaultHelpers .FILE_FLOW none none
      (some sampleProc) (some (some { path := "/tmp/a" }, some { path := "/tmp/b" }))
      none (some sampleFlow) (by simp) (by simp)

/-! ### The page-flushing loop and the tabular renderer -/

theorem mapE_ok_map {g : β → γ} {u : α → γ} {f : α → Except PyError β} :
    ∀ {l : List α}, (∀ a ∈ l, ∃ b, f a = .ok b ∧ g b = u a) →
    ∃ ys, mapE f l = .ok ys ∧ ys.map g = l.map u := by
  intro l
  induction l with
  | nil => exact fun _ => ⟨[], rfl, by simp⟩
  | cons a t ih =>
    intro h
    obtain ⟨b, hb, hgb⟩ := h a (by simp)
    obtain ⟨ys, hys, hmap⟩ := ih (fun x hx => h x (by simp [hx]))
    refine ⟨b :: ys, ?_, by simp [hmap, hgb]⟩
    simp [mapE, hb, hys, Bind.bind, Except.bind, Pure.pure, Except.pure]

theorem enumFrom_length : ∀ (i : Nat) (l : List α), (enumFrom i l).length = l.length := by
  intro i l
  induction l generalizing i with
  | nil => rfl
  | cons a t ih => simp [enumFrom, ih]

theorem enumFrom_mem_snd : ∀ {i : Nat} {l : List α} {q : Nat × α},
    q ∈ enumFrom i l → q.2 ∈ l := by
  intro i l
  induction l generalizing i with
  | nil => intro q h; simp [enumFrom] at h
  | cons a t ih =>
    intro q h
    rcases List.mem_cons.mp (by simpa [enumFrom] using h) with h1 | h2
    · simp [h1]
    · exact List.mem_cons_of_mem a (ih h2)

/-- Block-size-and-header model of the page-flushing loop: it depends only on
the number of remaining records, the running index and the buffer length. -/
def pagesMeta : Nat → Nat → Nat → Bool → List (Nat × Bool)
  | 0, _, blen, first => if blen > 0 then [(blen, first)] else []
  | Nat.succ n, idx, blen, first =>
    if idx > 0 ∧ idx % 1000 = 0 then (blen + 1, first) :: pagesMeta n (idx + 1) 0 false
    else pagesMeta n (idx + 1) (blen + 1) first

theorem pagesAux_meta (rs : List α) :
    ∀ (idx : Nat) (buf : List α) (first : Bool),
    (pagesAux rs idx buf first).map (fun b => (b.2.length, b.1)) =
      pagesMeta rs.length idx buf.length first := by
  induction rs with
  | nil =>
    intro idx buf first
    by_cases h : buf.length > 0 <;> simp [pagesAux, pagesMeta, h]
  | cons r rest ih =>
    intro idx buf first
    by_cases h : idx > 0 ∧ idx % 1000 = 0
    · simp [pagesAux, pagesMeta, h, ih]
    · simpa [pagesAux, pagesMeta, h] using ih (idx + 1) (r :: buf) first

theorem pagesAux_mem (rs : List α) :
    ∀ (idx : Nat) (buf : List α) (first : Bool) (b : Bool × List α),
    b ∈ pagesAux rs idx buf first → ∀ x ∈ b.2, x ∈ rs ∨ x ∈ buf := by
  induction rs with
  | nil =>
    intro idx buf first b hb x hx
    by_cases h : buf.length > 0
    · simp only [pagesAux, if_pos h, List.mem_singleton] at hb
      subst hb
      simp only at hx
      exact Or.inr (List.mem_reverse.mp hx)
    · simp [pagesAux, if_neg h] at hb
  | cons r rest ih =>
    intro idx buf first b hb x hx
    by_cases h : idx > 0 ∧ idx % 1000 = 0
    · simp only [pagesAux, if_pos h] at hb
      rcases List.mem_cons.mp hb with h1 | h2
      · subst h1
        simp only at hx
        have := List.mem_reverse.mp hx
        rcases List.mem_cons.mp this with hr | hbuf
        · exact Or.inl (by simp [hr])
        · exact Or.inr hbuf
      · rcases ih (idx + 1) [] false b h2 x hx with h3 | h3
        · exact Or.inl (List.mem_cons_of_mem r h3)
        · simp at h3
    · simp only [pagesAux, if_neg h] at hb
      rcases ih (idx + 1) (r :: buf) first b hb x hx with h3 | h3
      · exact Or.inl (List.mem_cons_of_mem r h3)
      · rcases List.mem_cons.mp h3 with h4 | h4
        · exact Or.inl (by simp [h4])
        · exact Or.inr h4

theorem toStdOut_ok {H : Helpers} {recs : List SFRecord}
    {fields : Option (List String)} {si : Bool}
    {P : List (Bool × List (List (String × List Char)))}
    (h : toStdOut H recs fields si = .ok P) :
    ∃ rows, mapE (stdoutStep H (fields.getD _default_fields) si) (enumFrom 0 recs) =
        .ok rows ∧ rows.length = recs.length ∧ P = pagesAux rows 0 [] true := by
  obtain ⟨rows, h1, h2⟩ := bindE_ok (by simpa [toStdOut] using h)
  refine ⟨rows, h1, ?_, ?_⟩
  · rw [mapE_length h1, enumFrom_length]
  · have h3 : pagesAux rows 0 [] true = P := by
      simpa [Pure.pure, Except.pure] using h2
    exact h3.symm

theorem moveToFront_fresh {od : List (String × Value)} {v : Value}
    (h : "idx" ∉ od.map Prod.fst) :
    moveToFront (odSet od "idx" v) "idx" = ("idx", v) :: od := by
  have hne : ∀ p ∈ od, ¬ (p.1 == "idx") = true := by
    intro p hp hbeq
    exact h (beq_iff_eq.mp hbeq ▸ List.mem_map_of_mem Prod.fst hp)
  have h1 : od.filter (fun p => p.1 == "idx") = [] := List.filter_eq_nil_iff.mpr hne
  have h2 : od.filter (fun p => !(p.1 == "idx")) = od :=
    List.filter_eq_self.mpr (fun p hp => by simpa using hne p hp)
  rw [odSet_append h, moveToFront, List.filter_append, List.filter_append, h1, h2]
  simp [List.filter]

/-- One `toStdOut` loop step on a well-formed record succeeds and produces a
row keyed by the index column followed by the default field list. -/
theorem stdoutStep_keys (H : Helpers) (r : SFRecord) (i : Nat) (hr : RecOK r) :
    ∃ row, stdoutStep H _default_fields true (i, r) = .ok row ∧
      row.map Prod.fst = "idx" :: _default_fields := by
  obtain ⟨h1, h2, h3⟩ := hr
  obtain ⟨p, hp⟩ := Option.isSome_iff_exists.mp h1
  obtain ⟨m, hm, hk⟩ := flatten_map_ok H r.objtype r.header r.cont r.pproc p r.files
    r.evt r.flow h2 h3
  have hm' : _flatten_map H r.objtype r.header r.cont r.pproc r.proc r.files r.evt
      r.flow = .ok m := by
    rw [hp]
    exact hm
  have hmem : ∀ k ∈ _default_fields, k ∈ m.map Prod.fst := by
    rw [hk]
    decide
  have hproj := projLoop_all_found (m := m) (o := []) hmem (by decide)
    (fun k _ hc => by simp at hc)
  set od := _default_fields.map (fun k => (k, (alook m k).getD (.str ""))) with hod
  have hflat : flattenRec H r (some _default_fields) = .ok od := by
    rw [flattenRec, flatten_some H r.objtype r.header r.cont r.pproc r.proc r.files
      r.evt r.flow hm' (by decide), hproj, List.nil_append]
  have hodkeys : od.map Prod.fst = _default_fields := by
    rw [hod, List.map_map]
    show List.map (fun k => k) _default_fields = _default_fields
    exact List.map_id _default_fields
  have hfresh : "idx" ∉ od.map Prod.fst := by
    rw [hodkeys]
    decide
  have hm1 : moveToFront (odSet od "idx" (.int i)) "idx" =
      ("idx", Value.int i) :: od := moveToFront_fresh hfresh
  have hwid : ∀ k ∈ ("idx" :: _default_fields), (alook _colwidths k).isSome = true := by
    decide
  have hwidths : ∀ kv ∈ ("idx", Value.int i) :: od,
      ∃ b, cellStep kv = .ok b ∧ b.1 = kv.1 := by
    intro kv hkv
    have hkmem : kv.1 ∈ "idx" :: _default_fields := by
      rcases List.mem_cons.mp hkv with hh | ht
      · simp [hh]
      · exact List.mem_cons_of_mem "idx" (hodkeys ▸ List.mem_map_of_mem Prod.fst ht)
    obtain ⟨w, hw'⟩ := Option.isSome_iff_exists.mp (hwid kv.1 hkmem)
    exact ⟨(kv.1, formatCell kv.2 (w + 2)), by rw [cellStep, hw']; rfl, rfl⟩
  obtain ⟨row, hrow, hkeys⟩ := mapE_ok_map (g := Prod.fst) (u := Prod.fst) hwidths
  refine ⟨row, ?_, ?_⟩
  · show (do
        let record ← flattenRec H r (some _default_fields)
        formatRecord record i true) = .ok row
    rw [hflat]
    simp only [Bind.bind, Except.bind]
    show mapE cellStep (moveToFront (odSet od "idx" (Value.int i)) "idx") = .ok row
    rw [hm1]
    exact hrow
  · rw [hkeys]
    simp [hodkeys]

theorem sampleRecPE_ok : RecOK sampleRecPE :=
  ⟨rfl, by simp [sampleRecPE], by simp [sampleRecPE]⟩

theorem pagesAux_2500 (rows : List α) (h : rows.length = 2500) :
    (pagesAux rows 0 [] true).map (fun b => b.2.length) = [1001, 1000, 499] ∧
    (pagesAux rows 0 [] true).map (fun b => b.1) = [true, false, false] := by
  have hmeta := pagesAux_meta rows 0 [] true
  rw [h] at hmeta
  simp only [List.length_nil] at hmeta
  rw [show pagesMeta 2500 0 0 true = [(1001, true), (1000, false), (499, false)] from
    by decide] at hmeta
  constructor
  · have h1 := congrArg (List.map Prod.fst) hmeta
    simpa [List.map_map, Function.comp] using h1
  · have h2 := congrArg (List.map Prod.snd) hmeta
    simpa [List.map_map, Function.comp] using h2

/-- C2 as amended: tabular rendering of exactly 2500 records flushes exactly 3
table blocks of 1001, 1000 and 499 records (the record whose index triggers a
flush is appended to the page before the flush, so the first block holds
indices 0 through 1000), with header text only on the first block. -/
theorem claim2_amended_pages :
    ∀ (H : Helpers) (recs : List SFRecord) (fields : Option (List String))
      (P : List (Bool × List (List (String × List Char)))),
      recs.length = 2500 →
      toStdOut H recs fields true = .ok P →
      P.map (fun b => b.2.length) = [1001, 1000, 499] ∧
      P.map (fun b => b.1) = [true, false, false] := by
  intro H recs fields P hlen hok
  obtain ⟨rows, hrows, hrlen, hP⟩ := toStdOut_ok hok
  subst hP
  exact pagesAux_2500 rows (hrlen.trans hlen)

/-- A concrete successful tabular render of 2500 identical records. -/
theorem toStdOut_sample2500 :
    ∃ P, toStdOut defaultHelpers (List.replicate 2500 sampleRecPE) none true = .ok P := by
  have hstep : ∀ q ∈ enumFrom 0 (List.replicate 2500 sampleRecPE), ∃ row,
      stdoutStep defaultHelpers _default_fields true q = .ok row ∧ True := by
    intro q hq
    have hq2 : q.2 = sampleRecPE := List.eq_of_mem_replicate (enumFrom_mem_snd hq)
    obtain ⟨row, hrow, _⟩ := stdoutStep_keys defaultHelpers q.2 q.1
      (hq2.symm ▸ sampleRecPE_ok)
    exact ⟨row, hrow, trivial⟩
  obtain ⟨rows, hrows, hlen, _⟩ := mapE_ok_forall hstep
  refine ⟨pagesAux rows 0 [] true, ?_⟩
  show (do
      let rows' ← mapE (stdoutStep defaultHelpers _default_fields true)
        (enumFrom 0 (List.replicate 2500 sampleRecPE))
      pure (pagesAux rows' 0 [] true) :
      Except PyError (List (Bool × List (List (String × List Char))))) =
    .ok (pagesAux rows 0 [] true)
  rw [hrows]
  simp [Bind.bind, Except.bind, Pure.pure, Except.pure]

/-- C2, counterexample to the claim as stated: a 2500-record stream does not
flush blocks of 1000, 1000 and 500 records. -/
theorem claim2_counterexample :
    ∃ P, toStdOut defaultHelpers (List.replicate 2500 sampleRecPE) none true = .ok P ∧
      P.map (fun b => b.2.length) = [1001, 1000, 499] ∧
      ¬ P.map (fun b => b.2.length) = [1000, 1000, 500] := by
  obtain ⟨P, hP⟩ := toStdOut_sample2500
  obtain ⟨rows, hrows, hrlen, hPeq⟩ := toStdOut_ok hP
  have hlens := pagesAux_2500 rows (by rw [hrlen]; simp)
  refine ⟨P, hP, hPeq ▸ hlens.1, ?_⟩
  rw [hPeq, hlens.1]
  simp

/-- Witness for the amended C2 at a concrete 2500-record stream. -/
theorem claim2_witness :
    ∃ P, toStdOut defaultHelpers (List.replicate 2500 sampleRecPE) none true = .ok P ∧
      P.map (fun b => b.2.length) = [1001, 1000, 499] ∧
      P.map (fun b => b.1) = [true, false, false] := by
  obtain ⟨P, hP⟩ := toStdOut_sample2500
  have h := claim2_amended_pages defaultHelpers (List.replicate 2500 sampleRecPE)
    none P (by simp) hP
  exact ⟨P, hP, h.1, h.2⟩

/-- C4, counterexample to the claim as stated: with no field-selection input,
the tabular mode does not emit all canonical fields — `proc_user` is canonical
but absent from every rendered row. -/
theorem claim4_counterexample :
    ∃ P, toStdOut defaultHelpers [sampleRecPE] none true = .ok P ∧
      "proc_user" ∈ canonicalKeys ∧
      ∀ blk ∈ P, ∀ row ∈ blk.2, "proc_user" ∉ row.map Prod.fst := by
  refine ⟨_, rfl, by decide, ?_⟩
  decide

/-- C4 as amended: with no field-selection input, the JSON modes emit all
canonical fields, CSV emits the canonical header with rows of canonical arity,
but the tabular mode defaults to the fixed default field list (preceded by the
index column) rather than all canonical fields. -/
theorem claim4_amended_modes :
    (∀ (H : Helpers) (recs : List SFRecord), (∀ r ∈ recs, RecOK r) →
      ∃ ms, toJsonStdOut H recs none = .ok ms ∧
        ∀ m ∈ ms, m.map Prod.fst = canonicalKeys) ∧
    (∀ (H : Helpers) (recs : List SFRecord), (∀ r ∈ recs, RecOK r) →
      ∃ ms, toJsonFile H recs none = .ok ms ∧
        ∀ m ∈ ms, m.map Prod.fst = canonicalKeys) ∧
    (∀ (H : Helpers) (recs : List SFRecord), recs ≠ [] → (∀ r ∈ recs, RecOK r) →
      ∃ rows, toCsvFile H recs none true = .ok (some canonicalKeys, rows) ∧
        rows.length = recs.length ∧
        ∀ row ∈ rows, row.length = canonicalKeys.length) ∧
    (∀ (H : Helpers) (recs : List SFRecord), (∀ r ∈ recs, RecOK r) →
      ∃ P, toStdOut H recs none true = .ok P ∧
        ∀ blk ∈ P, ∀ row ∈ blk.2, row.map Prod.fst = "idx" :: _default_fields) := by
  refine ⟨?_, ?_, toCsvFile_canonical, ?_⟩
  · intro H recs hall
    obtain ⟨ms, hms, _, hP⟩ := mapE_ok_forall (fun r hr => flattenRec_none_ok (hall r hr))
    exact ⟨ms, hms, hP⟩
  · intro H recs hall
    obtain ⟨ms, hms, _, hP⟩ := mapE_ok_forall (fun r hr => flattenRec_none_ok (hall r hr))
    exact ⟨ms, hms, hP⟩
  · intro H recs hall
    have hstep : ∀ q ∈ enumFrom 0 recs, ∃ row,
        stdoutStep H _default_fields true q = .ok row ∧
        row.map Prod.fst = "idx" :: _default_fields := by
      intro q hq
      exact stdoutStep_keys H q.2 q.1 (hall q.2 (enumFrom_mem_snd hq))
    obtain ⟨rows, hrows, _, hP⟩ := mapE_ok_forall hstep
    refine ⟨pagesAux rows 0 [] true, ?_, ?_⟩
    · show (do
          let rows' ← mapE (stdoutStep H _default_fields true) (enumFrom 0 recs)
          pure (pagesAux rows' 0 [] true) :
          Except PyError (List (Bool × List (List (String × List Char))))) =
        .ok (pagesAux rows 0 [] true)
      rw [hrows]
      simp [Bind.bind, Except.bind, Pure.pure, Except.pure]
    · intro blk hblk row hrow
      rcases pagesAux_mem rows 0 [] true blk hblk row hrow with h | h
      · exact hP row h
      · simp at h

/-- Witness for the amended C4 at a concrete one-record stream. -/
theorem claim4_witness :
    (∃ ms, toJsonStdOut defaultHelpers [sampleRecPE] none = .ok ms ∧
      ∀ m ∈ ms, m.map Prod.fst = canonicalKeys) ∧
    (∃ ms, toJsonFile defaultHelpers [sampleRecPE] none = .ok ms ∧
      ∀ m ∈ ms, m.map Prod.fst = canonicalKeys) ∧
    (∃ rows, toCsvFile defaultHelpers [sampleRecPE] none true =
      .ok (some canonicalKeys, rows) ∧ rows.length = 1 ∧
      ∀ row ∈ rows, row.length = canonicalKeys.length) ∧
    (∃ P, toStdOut defaultHelpers [sampleRecPE] none true = .ok P ∧
      ∀ blk ∈ P, ∀ row ∈ blk.2, row.map Prod.fst = "idx" :: _default_fields) := by
  have hall : ∀ r ∈ [sampleRecPE], RecOK r := by
    intro r hr
    rw [List.mem_singleton.mp hr]
    exact sampleRecPE_ok
  refine ⟨claim4_amended_modes.1 defaultHelpers [sampleRecPE] hall,
    claim4_amended_modes.2.1 defaultHelpers [sampleRecPE] hall, ?_,
    claim4_amended_modes.2.2.2 defaultHelpers [sampleRecPE] hall⟩
  obtain ⟨rows, h1, h2, h3⟩ := claim4_amended_modes.2.2.1 defaultHelpers [sampleRecPE]
    (by simp) hall
  exact ⟨rows, h1, by simpa using h2, h3⟩

end SF
